import Mathlib

/-!
# Verification of the pgx-with-automapper relational automapper

A shallow embedding of the Go repository `raunlo/pgx-with-automapper`.
The mapper converts flattened tabular query results into typed object
graphs using per-type metadata built by reflective analysis.

The repository contains two snapshots ("variants") of the mapper file
`mapper/dbo_mapper.go`; both are embedded below (functions suffixed `1`
for the first variant and `2` for the second).  Reflection is modelled
by an explicit value universe `Val`, a type universe `GoType`, a struct
environment `Env` (field lists with their Go tags), and an explicit heap
(Go `reflect.Value`s of pointers alias memory; the identity map of a
scan stores pointers to entity instances, so mutation through those
pointers must be observable).  Go maps are modelled as association
lists iterated in insertion order.  Floating-point columns and
`time.Time` columns are outside the model (no claim mentions them);
recursion through the type graph and through `reflect`-style value
construction uses explicit fuel, with fuel exhaustion and Go panics
both mapped to a `panicked` outcome.
-/

namespace Automapper

/-- Runtime Go values as seen through `reflect`: database cell values and
struct field values.  `vNull` doubles as the nil `interface{}` (a missing
or NULL column) and as the "invalid reflect.Value" marker. -/
inductive Val where
  | vNull
  | vInt (i : Int)
  | vUint (n : Nat)
  | vStr (s : String)
  | vBool (b : Bool)
  | vStruct (tname : String) (fields : List Val)
  | vPtr (p : Option Val)
  | vSlice (elems : List Val)
  deriving Repr

mutual

/-- Boolean equality on values (Go `interface{}` equality as used by
`map[interface{}]`). -/
def Val.beq : Val → Val → Bool
  | .vNull, .vNull => true
  | .vInt i, .vInt j => i == j
  | .vUint m, .vUint n => m == n
  | .vStr s, .vStr t => s == t
  | .vBool b, .vBool c => b == c
  | .vStruct n fs, .vStruct m gs => n == m && Val.beqList fs gs
  | .vPtr none, .vPtr none => true
  | .vPtr (some p), .vPtr (some q) => Val.beq p q
  | .vSlice l, .vSlice m => Val.beqList l m
  | _, _ => false

def Val.beqList : List Val → List Val → Bool
  | [], [] => true
  | a :: l, b :: m => Val.beq a b && Val.beqList l m
  | _, _ => false

end

instance : BEq Val := ⟨Val.beq⟩

theorem valBeq_iff : ∀ a b : Val, Val.beq a b = true ↔ a = b := by
  refine Val.beq.induct
    (fun a b => Val.beq a b = true ↔ a = b)
    (fun l m => Val.beqList l m = true ↔ l = m)
    ?_ ?_ ?_ ?_ ?_ ?_ ?_ ?_ ?_ ?_ ?_ ?_ ?_
  · simp [Val.beq]
  · intro i j; simp [Val.beq]
  · intro m n; simp [Val.beq]
  · intro s t; simp [Val.beq]
  · intro b c; simp [Val.beq]
  · intro n fs m gs ih; simp [Val.beq, ih]
  · simp [Val.beq]
  · intro p q ih; simp [Val.beq, ih]
  · intro l m ih; simp [Val.beq, ih]
  · intro t x h1 h2 h3 h4 h5 h6 h7 h8 h9
    cases t <;> cases x <;>
      first
        | exact (h1 rfl rfl).elim
        | exact (h2 _ _ rfl rfl).elim
        | exact (h3 _ _ rfl rfl).elim
        | exact (h4 _ _ rfl rfl).elim
        | exact (h5 _ _ rfl rfl).elim
        | exact (h6 _ _ _ _ rfl rfl).elim
        | exact (h9 _ _ rfl rfl).elim
        | (rename_i p q; cases p <;> cases q <;>
            first
              | exact (h7 rfl rfl).elim
              | exact (h8 _ _ rfl rfl).elim
              | simp [Val.beq])
        | simp [Val.beq]
  · simp [Val.beqList]
  · intro a l b m ih1 ih2; simp [Val.beqList, ih1, ih2]
  · intro t x h1 h2
    cases t <;> cases x <;>
      first
        | exact (h1 rfl rfl).elim
        | exact (h2 _ _ _ _ rfl rfl).elim
        | simp [Val.beqList]

theorem valBeqList_iff : ∀ l m : List Val, Val.beqList l m = true ↔ l = m := by
  intro l
  induction l with
  | nil => intro m; cases m <;> simp [Val.beqList]
  | cons a l ih =>
    intro m
    cases m <;> simp [Val.beqList, valBeq_iff, ih]

instance : LawfulBEq Val where
  eq_of_beq h := (valBeq_iff _ _).mp h
  rfl := (valBeq_iff _ _).mpr rfl

instance : DecidableEq Val := fun a b =>
  decidable_of_iff (Val.beq a b = true) (valBeq_iff a b)

theorem valBeq_def (a b : Val) : (a == b) = Val.beq a b := rfl

/-- Go types, as far as the mapper inspects them. -/
inductive GoType where
  | tInt
  | tUint
  | tStr
  | tBool
  | tStruct (name : String)
  | tPtr (elem : GoType)
  | tSlice (elem : GoType)
  deriving DecidableEq, Repr

/-- Structural boolean equality on types (`reflect.Type` identity). -/
def GoType.beq : GoType → GoType → Bool
  | .tInt, .tInt => true
  | .tUint, .tUint => true
  | .tStr, .tStr => true
  | .tBool, .tBool => true
  | .tStruct n, .tStruct m => n == m
  | .tPtr a, .tPtr b => GoType.beq a b
  | .tSlice a, .tSlice b => GoType.beq a b
  | _, _ => false

instance : BEq GoType := ⟨GoType.beq⟩

theorem goTypeBeq_iff : ∀ a b : GoType, GoType.beq a b = true ↔ a = b := by
  intro a
  induction a <;> intro b <;> cases b <;> simp_all [GoType.beq]

instance : LawfulBEq GoType where
  eq_of_beq h := (goTypeBeq_iff _ _).mp h
  rfl := (goTypeBeq_iff _ _).mpr rfl

theorem goTypeBeq_def (a b : GoType) : (a == b) = GoType.beq a b := rfl

/-- A struct field together with its mapper-relevant tags
(`db`, `primaryKey`, `relationship`); an absent tag is `""`. -/
structure GoField where
  name : String
  typ : GoType
  dbTag : String := ""
  primaryKeyTag : String := ""
  relationshipTag : String := ""
  deriving DecidableEq, Repr

/-- The struct environment: struct type name to its field list
(Go's `reflect.Type.Field`). -/
abbrev Env := List (String × List GoField)

def envFields (env : Env) (n : String) : Option (List GoField) :=
  (env.find? (fun p => p.1 == n)).map (fun p => p.2)

/-- `reflect_utils.DeReferencePointer`. -/
def DeReferencePointer : GoType → GoType
  | .tPtr t => t
  | t => t

/-- The element-type computation shared by `analyzeEntity` and
`mapRelationships`: dereference a pointer, then take a slice's element
type. -/
def relElemType (t : GoType) : GoType :=
  match DeReferencePointer t with
  | .tSlice e => e
  | t' => t'

/-- `reflect_utils.IsStruct`: kind is Struct, or kind is Ptr and the
pointee's kind is Struct (a nil pointer's `Elem()` is the invalid value,
whose kind is not Struct). -/
def IsStruct : Val → Bool
  | .vStruct _ _ => true
  | .vPtr (some (.vStruct _ _)) => true
  | _ => false

mutual

/-- `reflect.Value.IsZero`. -/
def isZeroVal : Val → Bool
  | .vNull => true
  | .vInt i => i == 0
  | .vUint n => n == 0
  | .vStr s => s == ""
  | .vBool b => b == false
  | .vStruct _ fs => isZeroAll fs
  | .vPtr p => p.isNone
  | .vSlice l => l.isEmpty

def isZeroAll : List Val → Bool
  | [] => true
  | v :: vs => isZeroVal v && isZeroAll vs

end

/-- `reflect_utils.IsStructPointerWithNonZeroFields`. -/
def IsStructPointerWithNonZeroFields : Val → Bool
  | .vPtr (some (.vStruct _ fs)) => !(isZeroAll fs)
  | _ => false

/-- `reflect.Indirect`; on a nil pointer Go yields the invalid value,
modelled by `vNull`. -/
def Indirect : Val → Val
  | .vPtr (some p) => p
  | .vPtr none => .vNull
  | v => v

/-- The zero value of a Go type (`reflect.New(t).Elem()`); fuel bounds
recursion through struct fields. -/
def zeroVal (env : Env) : Nat → GoType → Val
  | 0, _ => .vNull
  | _ + 1, .tInt => .vInt 0
  | _ + 1, .tUint => .vUint 0
  | _ + 1, .tStr => .vStr ""
  | _ + 1, .tBool => .vBool false
  | _ + 1, .tPtr _ => .vPtr none
  | _ + 1, .tSlice _ => .vSlice []
  | fuel + 1, .tStruct n =>
    match envFields env n with
    | some fs => .vStruct n (fs.map (fun f => zeroVal env fuel f.typ))
    | none => .vNull

/-- The runtime Go type of a value, where recoverable (`reflect.TypeOf`);
empty slices and nil pointers do not determine their element type here. -/
def typeOfVal : Val → Option GoType
  | .vNull => none
  | .vInt _ => some .tInt
  | .vUint _ => some .tUint
  | .vStr _ => some .tStr
  | .vBool _ => some .tBool
  | .vStruct n _ => some (.tStruct n)
  | .vPtr (some p) =>
    match typeOfVal p with
    | some t => some (.tPtr t)
    | none => none
  | .vPtr none => none
  | .vSlice _ => none

/-! ## Association-list helpers

Go maps are modelled as association lists: lookup finds the first
binding, insertion overwrites an existing binding in place or appends a
new one (iteration order is determinized to insertion order). -/

def assocGet {α β : Type} [BEq α] (l : List (α × β)) (k : α) : Option β :=
  (l.find? (fun p => p.1 == k)).map (fun p => p.2)

def assocSet {α β : Type} [BEq α] : List (α × β) → α → β → List (α × β)
  | [], k, v => [(k, v)]
  | (a, b) :: t, k, v => if a == k then (k, v) :: t else (a, b) :: assocSet t k v

/-! ## Metadata registry (`mapper/entity_graph.go`) and analyzer -/

/-- `mapper.PrimaryKeyInfo` (first variant of `dbo_mapper.go`). -/
structure PrimaryKeyInfo where
  dbPrimaryKeyName : String
  structPrimaryKeyFieldName : String
  deriving DecidableEq, Repr

/-- `mapper.MappingInfo`, with the primary key as in the first variant;
the second variant stores only the db column name (`KeyField string`),
recoverable as `KeyField.map dbPrimaryKeyName`. -/
structure MappingInfo where
  KeyField : Option PrimaryKeyInfo
  FieldMapping : List (String × Nat)
  Relationships : List (Nat × GoType)
  deriving DecidableEq, Repr

/-- `globalEntityGraphMappingInfo`: type identity to descriptor.  A
binding to `none` models the stored nil `*MappingInfo` placeholder. -/
abbrev Registry := List (GoType × Option MappingInfo)

/-- `GetEntityGraphMappingInfo`: outer `none` = key absent; `some none` =
placeholder (nil descriptor) stored. -/
def GetEntityGraphMappingInfo (reg : Registry) (t : GoType) : Option (Option MappingInfo) :=
  assocGet reg t

/-- `SetEntityGraphMappingInfo`. -/
def SetEntityGraphMappingInfo (reg : Registry) (t : GoType) (v : Option MappingInfo) : Registry :=
  assocSet reg t v

/-- Result of `analyzeEntity`: success or error carry the (global)
registry; `panicked` covers reflect panics and nontermination. -/
inductive ARes where
  | ok (reg : Registry)
  | err (msg : String) (reg : Registry)
  | panicked
  deriving DecidableEq, Repr

/-- Result of the field loop inside `analyzeEntity`. -/
inductive FRes where
  | ok (fieldMapping : List (String × Nat)) (relationships : List (Nat × GoType))
      (keyField : Option PrimaryKeyInfo) (reg : Registry)
  | err (msg : String) (reg : Registry)
  | panicked
  deriving DecidableEq, Repr

/-- The field loop of `analyzeEntity` (first variant, lines 40-74),
parameterized by the recursive analysis call used for relationship
element types. -/
def analyzeFieldLoop (recur : GoType → Registry → ARes) :
    List GoField → Nat → List (String × Nat) → List (Nat × GoType) →
    Option PrimaryKeyInfo → Registry → FRes
  | [], _, fm, rels, kf, reg => .ok fm rels kf reg
  | field :: rest, index, fm, rels, kf, reg =>
    if field.primaryKeyTag != "" then
      match kf with
      | none =>
        analyzeFieldLoop recur rest (index + 1) (assocSet fm field.primaryKeyTag index)
          rels (some ⟨field.primaryKeyTag, field.name⟩) reg
      | some _ => .err "multiple primary key fields found" reg
    else if field.relationshipTag != "" then
      let rels := assocSet rels index field.typ
      let elementType := relElemType field.typ
      match recur elementType reg with
      | .ok reg' => analyzeFieldLoop recur rest (index + 1) fm rels kf reg'
      | .err m reg' => .err m reg'
      | .panicked => .panicked
    else if field.dbTag != "" then
      analyzeFieldLoop recur rest (index + 1) (assocSet fm field.dbTag index) rels kf reg
    else
      analyzeFieldLoop recur rest (index + 1) fm rels kf reg

/-- `analyzeEntity` (first variant, lines 28-83): registers a descriptor
for `currentType`, recursing into relationship types; a dummy (nil)
placeholder inserted before the field loop guards cycles.  Fuel bounds
the recursion (the Go code can overflow the stack when a relationship
element type is itself a pointer type); exhaustion, like the
`NumField` panic on a non-struct type, yields `panicked`. -/
def analyzeEntity (env : Env) : Nat → GoType → Registry → ARes
  | 0, _, _ => .panicked
  | fuel + 1, currentType, reg =>
    if (GetEntityGraphMappingInfo reg currentType).isSome then .ok reg
    else
      let currentType := DeReferencePointer currentType
      -- set dummy value to avoid infinite recursion
      let reg := SetEntityGraphMappingInfo reg currentType none
      match currentType with
      | .tStruct n =>
        match envFields env n with
        | some fields =>
          match analyzeFieldLoop (analyzeEntity env fuel) fields 0 [] [] none reg with
          | .ok fm rels kf reg' =>
            .ok (SetEntityGraphMappingInfo reg' (.tStruct n) (some ⟨kf, fm, rels⟩))
          | .err m reg' => .err m reg'
          | .panicked => .panicked
        | none => .panicked
      | _ => .panicked

/-- `analyzeEntityGraphs` panics when analysis fails; `none` models the
panic (abnormal termination of the scan path). -/
def analyzeEntityGraphs (env : Env) (fuel : Nat) (t : GoType) (reg : Registry) :
    Option Registry :=
  match analyzeEntity env fuel t reg with
  | .ok reg' => some reg'
  | _ => none

/-- The pure content of the descriptor `analyzeEntity` computes for a
field list: the accumulators depend only on the fields, never on the
registry.  `none` when a second primary-key field occurs. -/
def buildInfoLoop : List GoField → Nat → List (String × Nat) → List (Nat × GoType) →
    Option PrimaryKeyInfo → Option MappingInfo
  | [], _, fm, rels, kf => some ⟨kf, fm, rels⟩
  | field :: rest, index, fm, rels, kf =>
    if field.primaryKeyTag != "" then
      match kf with
      | none =>
        buildInfoLoop rest (index + 1) (assocSet fm field.primaryKeyTag index)
          rels (some ⟨field.primaryKeyTag, field.name⟩)
      | some _ => none
    else if field.relationshipTag != "" then
      buildInfoLoop rest (index + 1) fm (assocSet rels index field.typ) kf
    else if field.dbTag != "" then
      buildInfoLoop rest (index + 1) (assocSet fm field.dbTag index) rels kf
    else
      buildInfoLoop rest (index + 1) fm rels kf

/-- The descriptor a successful analysis stores for a type. -/
def infoOf (env : Env) (t : GoType) : Option MappingInfo :=
  match t with
  | .tStruct n => (envFields env n).bind (fun fs => buildInfoLoop fs 0 [] [] none)
  | _ => none

/-! ## Value coercion engine (`setFieldValue` and helpers)

Both variants share the scalar setters verbatim; they differ in
`setSliceField`.  The engine is typed by the destination field's static
type (`reflect.Value` carries its type in Go). -/

/-- Result of a field set: the new field value on success. -/
inductive SRes where
  | ok (v : Val)
  | err (msg : String)
  | panicked
  deriving DecidableEq, Repr

/-- Rendering of `%T` for error messages. -/
def valTypeName : Val → String
  | .vNull => "<nil>"
  | .vInt _ => "int64"
  | .vUint _ => "uint64"
  | .vStr _ => "string"
  | .vBool _ => "bool"
  | .vStruct n _ => n
  | .vPtr _ => "ptr"
  | .vSlice _ => "slice"

def goTypeName : GoType → String
  | .tInt => "int"
  | .tUint => "uint"
  | .tStr => "string"
  | .tBool => "bool"
  | .tStruct n => n
  | .tPtr t => "*" ++ goTypeName t
  | .tSlice t => "[]" ++ goTypeName t

/-- `setIntField` (the float64 source case is outside the model). -/
def setIntField (value : Val) : SRes :=
  match value with
  | .vInt i => .ok (.vInt i)
  | _ => .err ("type mismatch: expected int64, got " ++ valTypeName value)

/-- `setUintField`. -/
def setUintField (value : Val) : SRes :=
  match value with
  | .vInt i =>
    if i < 0 then
      .err ("cannot assign negative value " ++ toString i ++ " to uint field")
    else .ok (.vUint i.toNat)
  | .vUint n => .ok (.vUint n)
  | _ => .err ("type mismatch: expected uint or uint64, got " ++ valTypeName value)

/-- `setStringField`. -/
def setStringField (value : Val) : SRes :=
  match value with
  | .vStr s => .ok (.vStr s)
  | _ => .err ("type mismatch: expected string, got " ++ valTypeName value)

/-- `setBoolField`. -/
def setBoolField (value : Val) : SRes :=
  match value with
  | .vBool b => .ok (.vBool b)
  | _ => .err ("type mismatch: expected bool, got " ++ valTypeName value)

/-- `setStructField` (the `time.Time` special case is outside the model).
`AssignableTo` is type identity here.  When the first assignability test
fails, Go evaluates `v.Elem()` and `.Type()` on it, which panics unless
`v` is a non-nil pointer; and a successful second test leads to
`field.Set(v)` with a pointer value, a kind-mismatch panic. -/
def setStructField (fieldTypeName : String) (value : Val) : SRes :=
  match value with
  | .vStruct n fs =>
    if n == fieldTypeName then .ok (.vStruct n fs) else .panicked
  | .vPtr (some p) =>
    match p with
    | .vStruct n _ =>
      if n == fieldTypeName then .panicked
      else .err ("type mismatch: expected " ++ fieldTypeName ++ ", got *" ++ n)
    | _ => .err ("type mismatch: expected " ++ fieldTypeName ++ ", got ptr")
  | _ => .panicked

/-- `reflect` convertibility between distinct types, restricted to the
integer conversions (two's-complement wrap at 64 bits). -/
def convertVal (target : GoType) (v : Val) : Option Val :=
  match target, v with
  | .tUint, .vInt i => some (.vUint (i % (2 : Int) ^ 64).toNat)
  | .tInt, .vUint n =>
    let m : Nat := n % 2 ^ 64
    some (.vInt (if m < 2 ^ 63 then (m : Int) else (m : Int) - (2 : Int) ^ 64))
  | _, _ => none

/-- `AssignableTo` then `ConvertibleTo`, as used by the first variant's
`setSliceField` on each appended element. -/
def assignOrConvertElem (elemType : GoType) (v : Val) : Option Val :=
  if typeOfVal v == some elemType then some v else convertVal elemType v

/-- The element loop of the first variant's `setSliceField` when the
source value is itself a slice. -/
def appendAll1 (elemType : GoType) : List Val → List Val → SRes
  | slice, [] => .ok (.vSlice slice)
  | slice, e :: rest =>
    match assignOrConvertElem elemType e with
    | some ne => appendAll1 elemType (slice ++ [ne]) rest
    | none =>
      .err ("cannot assign or convert " ++ valTypeName e ++ " to " ++ goTypeName elemType)

/-- `setSliceField` (first variant, lines 387-432): appends to the
existing slice (a nil slice behaves as empty). -/
def setSliceField1 (elemType : GoType) (fieldVal : Val) (v : Val) : SRes :=
  match fieldVal with
  | .vSlice slice =>
    match v with
    | .vSlice elems => appendAll1 elemType slice elems
    | _ =>
      match assignOrConvertElem elemType v with
      | some ne => .ok (.vSlice (slice ++ [ne]))
      | none =>
        .err ("cannot assign or convert " ++ valTypeName v ++ " to " ++ goTypeName elemType)
  | _ => .err ("field must be a slice, got " ++ valTypeName fieldVal)

/-- Top-of-`setFieldValue` dereference: if the field is not a pointer
but the value is a non-nil pointer, use the pointee. -/
def derefValue (ft : GoType) (value : Val) : Val :=
  match ft, value with
  | .tPtr _, _ => value
  | _, .vPtr (some p) => p
  | _, v => v

/-- `setPointerField` (same text in both variants): allocates the
pointee when the field is nil, then recurses (`recur` is the variant's
`setFieldValue` at the pointee type) with the original value. -/
def setPointerFieldWith (zeroElem : Val) (recur : Val → Val → SRes)
    (fieldVal value : Val) : SRes :=
  let elemVal :=
    match fieldVal with
    | .vPtr (some p) => p
    | _ => zeroElem
  match recur elemVal value with
  | .ok nv => .ok (.vPtr (some nv))
  | r => r

/-- The element loop of the second variant's `setSliceField`; `setElem`
sets a fresh zero element of the slice's element type. -/
def appendAll2 (setElem : Val → SRes) : List Val → List Val → SRes
  | slice, [] => .ok (.vSlice slice)
  | slice, e :: rest =>
    match setElem e with
    | .ok ne => appendAll2 setElem (slice ++ [ne]) rest
    | r => r

/-- `setSliceField` (second variant, lines 791-827): each appended
element is built by recursively setting a fresh zero element.  The
`currentSlice == nil` test compares a typed nil inside `interface{}`
against nil and is never true; a nil slice still appends correctly. -/
def setSliceField2 (setElem : Val → SRes) (fieldVal v : Val) : SRes :=
  let slice :=
    match fieldVal with
    | .vSlice l => l
    | _ => []
  match v with
  | .vSlice elems => appendAll2 setElem slice elems
  | _ =>
    match setElem v with
    | .ok ne => .ok (.vSlice (slice ++ [ne]))
    | r => r

/-- `setFieldValue` (first variant, lines 271-303).  `ft` is the static
type of the destination field, `fieldVal` its current value, `zf` fuel
for zero-value construction. -/
def setFieldValue1 (env : Env) (zf : Nat) : GoType → Val → Val → SRes
  | ft, fieldVal, value =>
    let v := derefValue ft value
    match ft with
    | .tInt => setIntField v
    | .tUint => setUintField v
    | .tStr => setStringField v
    | .tBool => setBoolField v
    | .tStruct n => setStructField n v
    | .tSlice et => setSliceField1 et fieldVal v
    | .tPtr et =>
      setPointerFieldWith (zeroVal env zf et) (setFieldValue1 env zf et) fieldVal value

/-- `setFieldValue` (second variant, lines 675-707); identical dispatch,
but with the second variant's `setSliceField`. -/
def setFieldValue2 (env : Env) (zf : Nat) : GoType → Val → Val → SRes
  | ft, fieldVal, value =>
    let v := derefValue ft value
    match ft with
    | .tInt => setIntField v
    | .tUint => setUintField v
    | .tStr => setStringField v
    | .tBool => setBoolField v
    | .tStruct n => setStructField n v
    | .tSlice et =>
      setSliceField2 (setFieldValue2 env zf et (zeroVal env zf et)) fieldVal v
    | .tPtr et =>
      setPointerFieldWith (zeroVal env zf et) (setFieldValue2 env zf et) fieldVal value

/-! ## Rows, heap and scan-scoped identity map

Entity instances live on an explicit heap because Go's identity map
stores pointers: a later row mutates the pointed-to instance, and the
orchestrators observe that mutation.  Everything below an instance's
fields is plain value data (copies), matching the observable behavior of
`reflect.Value.Set`/`reflect.Append`. -/

/-- A row as produced by `pgx.RowToMap`: ordered column-to-value
bindings; a NULL column is bound to `vNull`. -/
abbrev Row := List (String × Val)

/-- `values[col]` (a missing column reads as the nil interface). -/
def rowGet (row : Row) (col : String) : Val :=
  (assocGet row col).getD .vNull

/-- The comma-ok boolean of `values[col]` (true even for a NULL value). -/
def rowHas (row : Row) (col : String) : Bool :=
  row.any (fun p => p.1 == col)

/-- The heap of allocated instances; addresses are indices. -/
abbrev Heap := List Val

def heapGet (h : Heap) (a : Nat) : Val := h.getD a .vNull

def heapSet (h : Heap) (a : Nat) (v : Val) : Heap := h.set a v

/-- The scan-scoped identity map
`map[reflect.Type]map[interface{}]reflect.Value`: per type, primary-key
value to instance address. -/
abbrev Lookup := List (GoType × List (Val × Nat))

/-- `lookup[entityType][keyValue] = obj`. -/
def lookupStore (l : Lookup) (t : GoType) (k : Val) (a : Nat) : Lookup :=
  assocSet l t (assocSet ((assocGet l t).getD []) k a)

/-- `objValue.Field(i)` read. -/
def structFieldGet (v : Val) (i : Nat) : Option Val :=
  match v with
  | .vStruct _ fs => fs.get? i
  | _ => none

/-- `objValue.Field(i).Set`. -/
def structFieldSet (v : Val) (i : Nat) (fv : Val) : Option Val :=
  match v with
  | .vStruct n fs => if i < fs.length then some (.vStruct n (fs.set i fv)) else none
  | _ => none

/-- `getTooManyRowsError`. -/
def getTooManyRowsErrorMsg (t : GoType) : String :=
  "Too many rows for entity(name=" ++ goTypeName t ++ ")"

/-- Mutable state threaded through a scan: identity map, global
registry, heap. -/
structure St where
  lookup : Lookup
  reg : Registry
  heap : Heap
  deriving DecidableEq, Repr

/-- Result of `mapToStruct`: instance address, the `entityExists` flag,
and the state; errors keep the state (the registry is global and the
heap mutations persist). -/
inductive MRes where
  | ok (addr : Nat) (existed : Bool) (st : St)
  | err (msg : String) (st : St)
  | panicked
  deriving DecidableEq, Repr

/-- Result of `mapRelationships` and of row loops. -/
inductive RRes where
  | ok (st : St)
  | err (msg : String) (st : St)
  | panicked
  deriving DecidableEq, Repr

/-- Result of the population loop (heap after the partial writes). -/
inductive PRes where
  | ok (heap : Heap)
  | err (msg : String) (heap : Heap)
  | panicked
  deriving DecidableEq, Repr

/-- The population loop of `mapToStruct` (lines 219-232): for each
mapped column, convert and set the field at `dest`, skipping NULL
values; parameterized by the variant's `setFieldValue`.  `flds` gives
the static field types of the entity struct. -/
def populateLoop (setF : GoType → Val → Val → SRes) (flds : List GoField) (values : Row)
    (dest : Nat) : List (String × Nat) → Heap → PRes
  | [], heap => .ok heap
  | (columnName, structIndex) :: rest, heap =>
    let dbValue := rowGet values columnName
    if dbValue == .vNull then
      -- Handle NULL values
      populateLoop setF flds values dest rest heap
    else
      match structFieldGet (heapGet heap dest) structIndex, flds.get? structIndex with
      | some fieldVal, some fld =>
        match setF fld.typ fieldVal dbValue with
        | .ok nfv =>
          match structFieldSet (heapGet heap dest) structIndex nfv with
          | some obj' => populateLoop setF flds values dest rest (heapSet heap dest obj')
          | none => .panicked
        | .err m => .err ("failed to map column " ++ columnName ++ ": " ++ m) heap
        | .panicked => .panicked
      | _, _ => .panicked

/-- The relationship loop of `mapRelationships` (first variant, lines
243-268), parameterized by the recursive `mapToStruct` call.  `objAddr`
is the address of the parent instance. -/
def mapRelLoop1 (env : Env) (zf : Nat) (recur : GoType → Row → Nat → St → MRes)
    (values : Row) (objAddr : Nat) : List (Nat × GoType) → St → RRes
  | [], st => .ok st
  | (fieldIndex, relationshipEntityType0) :: rest, st =>
    let relationshipEntityType := relElemType relationshipEntityType0
    -- reflect.New(relationshipEntityType)
    let newAddr := st.heap.length
    let st1 : St := ⟨st.lookup, st.reg, st.heap ++ [zeroVal env zf relationshipEntityType]⟩
    match recur relationshipEntityType values newAddr st1 with
    | .err m st' => .err m st'
    | .panicked => .panicked
    | .ok valAddr _ st' =>
      -- value is the returned pointer; value.Interface() snapshots the pointee
      let value : Val := .vPtr (some (heapGet st'.heap valAddr))
      if IsStructPointerWithNonZeroFields value then
        match structFieldGet (heapGet st'.heap objAddr) fieldIndex with
        | none => .panicked
        | some field =>
          if IsStruct field && !(isZeroVal (Indirect field)) then
            .err (getTooManyRowsErrorMsg relationshipEntityType) st'
          else
            match setFieldValue1 env zf relationshipEntityType0 field value with
            | .ok nfv =>
              match structFieldSet (heapGet st'.heap objAddr) fieldIndex nfv with
              | some obj' =>
                mapRelLoop1 env zf recur values objAddr rest
                  ⟨st'.lookup, st'.reg, heapSet st'.heap objAddr obj'⟩
              | none => .panicked
            | .err m => .err m st'
            | .panicked => .panicked
      else
        mapRelLoop1 env zf recur values objAddr rest st'

/-- The relationship loop of `mapRelationships` (second variant, lines
647-672): no `IsStructPointerWithNonZeroFields` guard, only
`value.IsValid()` (always true after a successful materialization). -/
def mapRelLoop2 (env : Env) (zf : Nat) (recur : GoType → Row → Nat → St → MRes)
    (values : Row) (objAddr : Nat) : List (Nat × GoType) → St → RRes
  | [], st => .ok st
  | (fieldIndex, relationshipEntityType0) :: rest, st =>
    let relationshipEntityType := relElemType relationshipEntityType0
    let newAddr := st.heap.length
    let st1 : St := ⟨st.lookup, st.reg, st.heap ++ [zeroVal env zf relationshipEntityType]⟩
    match recur relationshipEntityType values newAddr st1 with
    | .err m st' => .err m st'
    | .panicked => .panicked
    | .ok valAddr _ st' =>
      let value : Val := .vPtr (some (heapGet st'.heap valAddr))
      match structFieldGet (heapGet st'.heap objAddr) fieldIndex with
      | none => .panicked
      | some field =>
        if IsStruct field && !(isZeroVal (Indirect field)) then
          .err (getTooManyRowsErrorMsg relationshipEntityType) st'
        else
          match setFieldValue2 env zf relationshipEntityType0 field value with
          | .ok nfv =>
            match structFieldSet (heapGet st'.heap objAddr) fieldIndex nfv with
            | some obj' =>
              mapRelLoop2 env zf recur values objAddr rest
                ⟨st'.lookup, st'.reg, heapSet st'.heap objAddr obj'⟩
            | none => .panicked
          | .err m => .err m st'
          | .panicked => .panicked

/-- The body of `mapToStruct` after descriptor resolution, shared shape
of both variants; `relLoop` and `setF` select the variant, and
`keyColumn` resolves the primary-key column name (first variant:
`KeyField.dbPrimaryKeyName`, after a nil check made by the caller). -/
def mapToStructBody (env : Env)
    (setF : GoType → Val → Val → SRes)
    (relLoop : Row → Nat → List (Nat × GoType) → St → RRes)
    (entityType : GoType) (mi : MappingInfo) (keyColumn : String)
    (values : Row) (dest : Nat) (entityLookup : List (Val × Nat)) (st : St) : MRes :=
  if rowHas values keyColumn then
    let keyValue := rowGet values keyColumn
    match assocGet entityLookup keyValue with
    | some a =>
      -- already materialized: population is skipped, relationships still map
      match relLoop values a mi.Relationships st with
      | .ok st' =>
        .ok a true ⟨lookupStore st'.lookup entityType keyValue a, st'.reg, st'.heap⟩
      | .err m st' => .err m st'
      | .panicked => .panicked
    | none =>
      match entityType with
      | .tStruct n =>
        match envFields env n with
        | some flds =>
          match populateLoop setF flds values dest mi.FieldMapping st.heap with
          | .ok heap1 =>
            match relLoop values dest mi.Relationships ⟨st.lookup, st.reg, heap1⟩ with
            | .ok st' =>
              .ok dest false ⟨lookupStore st'.lookup entityType keyValue dest, st'.reg, st'.heap⟩
            | .err m st' => .err m st'
            | .panicked => .panicked
          | .err m heap1 => .err m ⟨st.lookup, st.reg, heap1⟩
          | .panicked => .panicked
        | none => .panicked
      | _ => .panicked
  else
    .err "no key field found in values" st

/-- `mapToStruct` (first variant, lines 192-240). -/
def mapToStruct1 (env : Env) (zf : Nat) : Nat → GoType → Row → Nat → St → MRes
  | 0, _, _, _, _ => .panicked
  | fuel + 1, entityType, values, dest, st =>
    let lookup0 :=
      if (assocGet st.lookup entityType).isSome then st.lookup
      else assocSet st.lookup entityType []
    let entityLookup := (assocGet lookup0 entityType).getD []
    let st0 : St := ⟨lookup0, st.reg, st.heap⟩
    let body := fun (mi : MappingInfo) (st' : St) =>
      match mi.KeyField with
      | none => MRes.panicked   -- nil *PrimaryKeyInfo dereference
      | some pk =>
        mapToStructBody env (setFieldValue1 env zf)
          (mapRelLoop1 env zf (mapToStruct1 env zf fuel) · · ·)
          entityType mi pk.dbPrimaryKeyName values dest entityLookup st'
    match GetEntityGraphMappingInfo st0.reg entityType with
    | none =>
      -- analyzeEntityGraphs panics if the analysis fails
      match analyzeEntity env fuel entityType st0.reg with
      | .ok reg' =>
        (match GetEntityGraphMappingInfo reg' entityType with
         | some (some mi) => body mi ⟨st0.lookup, reg', st0.heap⟩
         | _ =>
           .err ("no mapping info found for entity(" ++ goTypeName entityType ++ ")")
             ⟨st0.lookup, reg', st0.heap⟩)
      | _ => .panicked
    | some none => .panicked   -- placeholder: nil descriptor dereference
    | some (some mi) => body mi st0

/-- `mapToStruct` (second variant, lines 596-644); the key column is the
string `KeyField` of the second variant's `MappingInfo` (empty when no
primary-key field was found, so the lookup misses instead of
panicking). -/
def mapToStruct2 (env : Env) (zf : Nat) : Nat → GoType → Row → Nat → St → MRes
  | 0, _, _, _, _ => .panicked
  | fuel + 1, entityType, values, dest, st =>
    let lookup0 :=
      if (assocGet st.lookup entityType).isSome then st.lookup
      else assocSet st.lookup entityType []
    let entityLookup := (assocGet lookup0 entityType).getD []
    let st0 : St := ⟨lookup0, st.reg, st.heap⟩
    let body := fun (mi : MappingInfo) (st' : St) =>
      let keyColumn := (mi.KeyField.map (fun pk => pk.dbPrimaryKeyName)).getD ""
      mapToStructBody env (setFieldValue2 env zf)
        (mapRelLoop2 env zf (mapToStruct2 env zf fuel) · · ·)
        entityType mi keyColumn values dest entityLookup st'
    match GetEntityGraphMappingInfo st0.reg entityType with
    | none =>
      match analyzeEntity env fuel entityType st0.reg with
      | .ok reg' =>
        (match GetEntityGraphMappingInfo reg' entityType with
         | some (some mi) => body mi ⟨st0.lookup, reg', st0.heap⟩
         | _ =>
           .err ("no mapping info found for entity(" ++ goTypeName entityType ++ ")")
             ⟨st0.lookup, reg', st0.heap⟩)
      | _ => .panicked
    | some none => .panicked
    | some (some mi) => body mi st0

/-! ## Scan orchestrators -/

/-- Result of `ScanOne`: the final pointee of `dest` and the registry. -/
inductive ScanOneRes where
  | ok (dest : Val) (reg : Registry)
  | err (msg : String) (dest : Val) (reg : Registry)
  | panicked
  deriving DecidableEq, Repr

/-- Result of `ScanMany`: the slice written to `dest` and the registry. -/
inductive ScanManyRes where
  | ok (result : List Val) (reg : Registry)
  | err (msg : String) (reg : Registry)
  | panicked
  deriving DecidableEq, Repr

/-- The row loop of `ScanOne` (both variants): every row materializes
into the same destination pointer (address 0). -/
def scanOneLoop (step : Row → Nat → St → MRes) : List Row → St → RRes
  | [], st => .ok st
  | row :: rest, st =>
    match step row 0 st with
    | .ok _ _ st' => scanOneLoop step rest st'
    | .err m st' => .err m st'
    | .panicked => .panicked

/-- `ScanOne` (first variant, lines 86-120).  `destType` is
`reflect.TypeOf(dest)` (`none` models a nil interface) and `destInit`
the initial pointee. -/
def ScanOne1 (env : Env) (zf fuel : Nat) (reg : Registry)
    (destType : Option GoType) (destInit : Val) (rows : List Row) : ScanOneRes :=
  match destType with
  | none => .err "dest cannot be nil" destInit reg
  | some dt =>
    match dt with
    | .tPtr _ =>
      match DeReferencePointer dt with
      | .tStruct n =>
        match scanOneLoop (mapToStruct1 env zf fuel (.tStruct n)) rows ⟨[], reg, [destInit]⟩ with
        | .ok st =>
          if isZeroVal (heapGet st.heap 0) then .err "no rows found" (heapGet st.heap 0) st.reg
          else .ok (heapGet st.heap 0) st.reg
        | .err m st => .err m (heapGet st.heap 0) st.reg
        | .panicked => .panicked
      | _ => .err "dest must be a pointer to a struct" destInit reg
    | _ => .err "dest must be a pointer" destInit reg

/-- `obj.FieldByName(name)` through the environment. -/
def fieldIndexByName (env : Env) (tname fname : String) : Option Nat :=
  (envFields env tname).bind (fun fs => fs.findIdx? (fun f => f.name == fname))

/-- Result of the `ScanMany` row loop (first variant): final state plus
`resultMap` and `idOrder`. -/
inductive ManyLoopRes where
  | ok (st : St) (resultMap : List (Val × Nat)) (idOrder : List Val)
  | err (msg : String) (st : St)
  | panicked
  deriving DecidableEq, Repr

/-- The row loop of `ScanMany` (first variant, lines 153-181): each row
materializes into a fresh instance; the materialized instance's
primary-key field value keys `resultMap` and, on first sight, is
appended to `idOrder`. -/
def scanManyLoop1 (env : Env) (zf fuel : Nat) (elType : GoType) :
    List Row → St → List (Val × Nat) → List Val → ManyLoopRes
  | [], st, resultMap, idOrder => .ok st resultMap idOrder
  | row :: rest, st, resultMap, idOrder =>
    let newAddr := st.heap.length
    let st1 : St := ⟨st.lookup, st.reg, st.heap ++ [zeroVal env zf elType]⟩
    match mapToStruct1 env zf fuel elType row newAddr st1 with
    | .err m st' => .err m st'
    | .panicked => .panicked
    | .ok objAddr _ st' =>
      -- obj.IsValid(); obj is a pointer, obj.Elem() is the struct at objAddr
      match GetEntityGraphMappingInfo st'.reg elType with
      | some (some mi) =>
        match mi.KeyField with
        | some pk =>
          match heapGet st'.heap objAddr with
          | .vStruct tname flds =>
            match fieldIndexByName env tname pk.structPrimaryKeyFieldName with
            | some idx =>
              match flds.get? idx with
              | some actualValue =>
                if (assocGet resultMap actualValue).isSome then
                  scanManyLoop1 env zf fuel elType rest st' resultMap idOrder
                else
                  scanManyLoop1 env zf fuel elType rest st'
                    (assocSet resultMap actualValue objAddr) (idOrder ++ [actualValue])
              | none => .panicked
            | none => .panicked
          | _ => .panicked
        | none => .panicked
      | _ => .panicked

/-- Building the output slice of `ScanMany` (first variant, lines
183-186): walk `idOrder` and copy each entity's current (final) state
out of the heap. -/
def buildResult1 (heap : Heap) (resultMap : List (Val × Nat)) : List Val → Option (List Val)
  | [] => some []
  | k :: rest =>
    match assocGet resultMap k with
    | some a => (buildResult1 heap resultMap rest).map (fun l => heapGet heap a :: l)
    | none => none

/-- `ScanMany` (first variant, lines 123-189). -/
def ScanMany1 (env : Env) (zf fuel : Nat) (reg : Registry)
    (destType : Option GoType) (rows : List Row) : ScanManyRes :=
  match destType with
  | none => .err "dest cannot be nil" reg
  | some dt =>
    match dt with
    | .tPtr inner =>
      match DeReferencePointer inner with
      | .tSlice elType =>
        match scanManyLoop1 env zf fuel elType rows ⟨[], reg, []⟩ [] [] with
        | .ok st resultMap idOrder =>
          match buildResult1 st.heap resultMap idOrder with
          | some result => .ok result st.reg
          | none => .panicked
        | .err m st => .err m st.reg
        | .panicked => .panicked
      | _ => .err "dest must be a slice" reg
    | _ => .err "dest must be a pointer" reg

/-- Result of the `ScanMany` row loop (second variant). -/
inductive ManyLoopRes2 where
  | ok (st : St) (result : List Val)
  | err (msg : String) (st : St)
  | panicked
  deriving DecidableEq, Repr

/-- The row loop of `ScanMany` (second variant, lines 571-590): a row
whose root entity was not seen before appends a copy of the instance to
the result immediately (`!*exists`). -/
def scanManyLoop2 (env : Env) (zf fuel : Nat) (elType : GoType) :
    List Row → St → List Val → ManyLoopRes2
  | [], st, result => .ok st result
  | row :: rest, st, result =>
    let newAddr := st.heap.length
    let st1 : St := ⟨st.lookup, st.reg, st.heap ++ [zeroVal env zf elType]⟩
    match mapToStruct2 env zf fuel elType row newAddr st1 with
    | .err m st' => .err m st'
    | .panicked => .panicked
    | .ok objAddr existed st' =>
      if !existed then
        scanManyLoop2 env zf fuel elType rest st' (result ++ [heapGet st'.heap objAddr])
      else
        scanManyLoop2 env zf fuel elType rest st' result

/-- `ScanMany` (second variant, lines 547-593). -/
def ScanMany2 (env : Env) (zf fuel : Nat) (reg : Registry)
    (destType : Option GoType) (rows : List Row) : ScanManyRes :=
  match destType with
  | none => .err "dest cannot be nil" reg
  | some dt =>
    match dt with
    | .tPtr inner =>
      match DeReferencePointer inner with
      | .tSlice elType =>
        match scanManyLoop2 env zf fuel elType rows ⟨[], reg, []⟩ [] with
        | .ok st result => .ok result st.reg
        | .err m st => .err m st.reg
        | .panicked => .panicked
      | _ => .err "dest must be a slice" reg
    | _ => .err "dest must be a pointer" reg

/-! ## Concrete schemas and rows (used by witnesses and counterexamples)

These mirror the struct types of the repository's tests
(`dbo_mapper_test.go`). -/

/-- `user` of the tests: `UserId uint primaryKey:"user_id"`,
`Name string db:"user_name"`. -/
def userSchema : String × List GoField :=
  ("user", [⟨"UserId", .tUint, "", "user_id", ""⟩, ⟨"Name", .tStr, "user_name", "", ""⟩])

/-- An org with a one-to-one (struct-shaped) user relationship, as in
`OrgWithUser`. -/
def orgOneSchema : String × List GoField :=
  ("org", [⟨"OrgId", .tUint, "", "org_id", ""⟩, ⟨"OrgName", .tStr, "org_name", "", ""⟩,
           ⟨"User", .tStruct "user", "", "", "oneToOne"⟩])

/-- An org with a one-to-many (slice-shaped) user relationship, as in
`OrgWithManyUsers`. -/
def orgManySchema : String × List GoField :=
  ("org", [⟨"OrgId", .tUint, "", "org_id", ""⟩, ⟨"OrgName", .tStr, "org_name", "", ""⟩,
           ⟨"Users", .tSlice (.tStruct "user"), "", "", "oneToMany"⟩])

/-- A struct with two primary-key-tagged fields (a schema error). -/
def dupPkSchema : String × List GoField :=
  ("bad", [⟨"A", .tUint, "", "id_a", ""⟩, ⟨"B", .tUint, "", "id_b", ""⟩])

def envUser : Env := [userSchema]

def envOrgOne : Env := [userSchema, orgOneSchema]

def envOrgMany : Env := [userSchema, orgManySchema]

def envDupPk : Env := [dupPkSchema]

def rowJohn : Row := [("user_id", .vInt 1), ("user_name", .vStr "John")]

def rowOrg1John : Row :=
  [("user_id", .vInt 1), ("user_name", .vStr "John"),
   ("org_id", .vInt 1), ("org_name", .vStr "default_org")]

def rowOrg1Jane : Row :=
  [("user_id", .vInt 2), ("user_name", .vStr "Jane"),
   ("org_id", .vInt 1), ("org_name", .vStr "default_org")]

def rowOrg2Jane : Row :=
  [("user_id", .vInt 2), ("user_name", .vStr "Jane"),
   ("org_id", .vInt 2), ("org_name", .vStr "billing_org")]

/-- The registry contents after analyzing the one-to-one org schema. -/
def regOrgOne : Registry :=
  [(.tStruct "org",
    some ⟨some ⟨"org_id", "OrgId"⟩, [("org_id", 0), ("org_name", 1)],
      [(2, .tStruct "user")]⟩),
   (.tStruct "user",
    some ⟨some ⟨"user_id", "UserId"⟩, [("user_id", 0), ("user_name", 1)], []⟩)]

/-- The registry contents after analyzing the one-to-many org schema. -/
def regOrgMany : Registry :=
  [(.tStruct "org",
    some ⟨some ⟨"org_id", "OrgId"⟩, [("org_id", 0), ("org_name", 1)],
      [(2, .tSlice (.tStruct "user"))]⟩),
   (.tStruct "user",
    some ⟨some ⟨"user_id", "UserId"⟩, [("user_id", 0), ("user_name", 1)], []⟩)]

def johnVal : Val := .vStruct "user" [.vUint 1, .vStr "John"]

def janeVal : Val := .vStruct "user" [.vUint 2, .vStr "Jane"]

/-- A minimal one-field user type, for small witness states. -/
def minUserSchema : String × List GoField :=
  ("u1f", [⟨"UserId", .tUint, "", "user_id", ""⟩])

/-- A minimal org with a one-to-one user relationship. -/
def minOrgSchema : String × List GoField :=
  ("o2f", [⟨"OrgId", .tUint, "", "org_id", ""⟩, ⟨"Owner", .tStruct "u1f", "", "", "oneToOne"⟩])

def envMin : Env := [minUserSchema, minOrgSchema]

/-- The registry after analyzing the minimal schemas. -/
def regMin : Registry :=
  [(.tStruct "o2f", some ⟨some ⟨"org_id", "OrgId"⟩, [("org_id", 0)], [(1, .tStruct "u1f")]⟩),
   (.tStruct "u1f", some ⟨some ⟨"user_id", "UserId"⟩, [("user_id", 0)], []⟩)]

def rowOrg1User1 : Row := [("org_id", .vInt 1), ("user_id", .vInt 1)]

def rowOrg1User2 : Row := [("org_id", .vInt 1), ("user_id", .vInt 2)]

def rowOrg2User3 : Row := [("org_id", .vInt 2), ("user_id", .vInt 3)]

/-- The scan state after materializing `rowOrg1User1` into a fresh
minimal org destination. -/
def st1min : St :=
  ⟨[(.tStruct "o2f", [(.vInt 1, 0)]), (.tStruct "u1f", [(.vInt 1, 1)])], regMin,
   [.vStruct "o2f" [.vUint 1, .vStruct "u1f" [.vUint 1]], .vStruct "u1f" [.vUint 1]]⟩

/-- The state after `rowOrg1User2`'s related user is materialized
(fresh user with key 2 at address 2). -/
def stRelDistinct : St :=
  ⟨[(.tStruct "o2f", [(.vInt 1, 0)]), (.tStruct "u1f", [(.vInt 1, 1), (.vInt 2, 2)])], regMin,
   [.vStruct "o2f" [.vUint 1, .vStruct "u1f" [.vUint 1]], .vStruct "u1f" [.vUint 1],
    .vStruct "u1f" [.vUint 2]]⟩

/-- The state after `rowOrg1User1`'s related user is materialized a
second time (the existing instance at address 1 is reused; the fresh
allocation at address 2 stays zero). -/
def stRelSame : St :=
  ⟨[(.tStruct "o2f", [(.vInt 1, 0)]), (.tStruct "u1f", [(.vInt 1, 1)])], regMin,
   [.vStruct "o2f" [.vUint 1, .vStruct "u1f" [.vUint 1]], .vStruct "u1f" [.vUint 1],
    .vStruct "u1f" [.vUint 0]]⟩

/-- A minimal org with a one-to-many user relationship. -/
def minOrgManySchema : String × List GoField :=
  ("oM", [⟨"OrgId", .tUint, "", "org_id", ""⟩,
          ⟨"Users", .tSlice (.tStruct "u1f"), "", "", "oneToMany"⟩])

def envMinMany : Env := [minUserSchema, minOrgManySchema]

/-- The registry after analyzing the minimal one-to-many schemas. -/
def regMinMany : Registry :=
  [(.tStruct "oM",
    some ⟨some ⟨"org_id", "OrgId"⟩, [("org_id", 0)], [(1, .tSlice (.tStruct "u1f"))]⟩),
   (.tStruct "u1f", some ⟨some ⟨"user_id", "UserId"⟩, [("user_id", 0)], []⟩)]

/-- The scan state after materializing `rowOrg1User1` into a fresh
minimal one-to-many org destination. -/
def st1many : St :=
  ⟨[(.tStruct "oM", [(.vInt 1, 0)]), (.tStruct "u1f", [(.vInt 1, 1)])], regMinMany,
   [.vStruct "oM" [.vUint 1, .vSlice [.vStruct "u1f" [.vUint 1]]], .vStruct "u1f" [.vUint 1]]⟩

/-- The state after the second `rowOrg1User1`'s related user has been
re-materialized (existing instance at address 1 reused; the fresh zero
allocation at address 2 unused). -/
def stManyRel : St :=
  ⟨[(.tStruct "oM", [(.vInt 1, 0)]), (.tStruct "u1f", [(.vInt 1, 1)])], regMinMany,
   [.vStruct "oM" [.vUint 1, .vSlice [.vStruct "u1f" [.vUint 1]]], .vStruct "u1f" [.vUint 1],
    .vStruct "u1f" [.vUint 0]]⟩

/-- The loop state after `ScanMany` (first variant) has processed the
fan-out rows (org 1, user 1), (org 1, user 2): the second row merged
user 2 into org 1 through the identity map; its fresh allocation at
address 2 went unused. -/
def stfC1 : St :=
  ⟨[(.tStruct "oM", [(.vInt 1, 0)]), (.tStruct "u1f", [(.vInt 1, 1), (.vInt 2, 3)])],
   regMinMany,
   [.vStruct "oM" [.vUint 1,
      .vSlice [.vStruct "u1f" [.vUint 1], .vStruct "u1f" [.vUint 2]]],
    .vStruct "u1f" [.vUint 1],
    .vStruct "oM" [.vUint 0, .vSlice []],
    .vStruct "u1f" [.vUint 2]]⟩

/-! ## Registry invariants (idempotence of the analysis) -/

/-- The registry holds a complete (non-placeholder) descriptor for `t`. -/
def regComplete (reg : Registry) (t : GoType) : Prop :=
  ∃ mi, assocGet reg t = some (some mi)

/-- Complete entries only grow across a registry transition. -/
def regCompLE (r₁ r₂ : Registry) : Prop :=
  ∀ t, regComplete r₁ t → regComplete r₂ t

/-- Every complete entry stores exactly the descriptor the analyzer
derives from the schema (`infoOf`); placeholder entries are
unconstrained.  Holds for every registry reachable from the empty one,
and makes re-analysis results canonical. -/
def regOK (env : Env) (reg : Registry) : Bool :=
  reg.all (fun p =>
    match p.2 with
    | none => true
    | some mi => infoOf env p.1 == some mi)

end Automapper

namespace Automapper

/-! ## General lemmas -/

theorem scanOneLoop_append (step : Row → Nat → St → MRes) (xs ys : List Row) (st : St) :
    scanOneLoop step (xs ++ ys) st =
      (match scanOneLoop step xs st with
       | .ok st1 => scanOneLoop step ys st1
       | r => r) := by
  induction xs generalizing st with
  | nil => simp [scanOneLoop]
  | cons x xs ih =>
    simp only [List.cons_append, scanOneLoop]
    cases step x 0 st <;> simp [ih]

/-- The analyzer field loop skips fields that carry neither a
primary-key nor a relationship tag, accumulating only column mappings:
registry and key-field accumulator are untouched. -/
theorem analyzeFieldLoop_plain (recur : GoType → Registry → ARes)
    (fs : List GoField) (rest : List GoField) (index : Nat)
    (fm : List (String × Nat)) (rels : List (Nat × GoType))
    (kf : Option PrimaryKeyInfo) (reg : Registry)
    (h : ∀ f ∈ fs, f.primaryKeyTag = "" ∧ f.relationshipTag = "") :
    ∃ fm', analyzeFieldLoop recur (fs ++ rest) index fm rels kf reg =
      analyzeFieldLoop recur rest (index + fs.length) fm' rels kf reg := by
  induction fs generalizing index fm with
  | nil => exact ⟨fm, by simp⟩
  | cons f fs ih =>
    obtain ⟨hpk, hrel⟩ := h f (by simp)
    have h' : ∀ g ∈ fs, g.primaryKeyTag = "" ∧ g.relationshipTag = "" :=
      fun g hg => h g (by simp [hg])
    by_cases hdb : f.dbTag = ""
    · obtain ⟨fm', hfm'⟩ := ih (index + 1) fm h'
      refine ⟨fm', ?_⟩
      simp only [List.cons_append, analyzeFieldLoop, hpk, hrel, hdb]
      simpa [Nat.add_assoc, Nat.add_comm 1 fs.length] using hfm'
    · obtain ⟨fm', hfm'⟩ := ih (index + 1) (assocSet fm f.dbTag index) h'
      refine ⟨fm', ?_⟩
      simp only [List.cons_append, analyzeFieldLoop, hpk, hrel, hdb]
      simp only [bne_iff_ne, ne_eq, hdb, not_false_eq_true, if_true]
      simpa [Nat.add_assoc, Nat.add_comm 1 fs.length] using hfm'

/-! ## Claim C3 -/

/-- C3: map-one over an empty row set with a valid pointer-to-struct
destination returns the NoRows error (`ErrNoRows`, "no rows found") and
the destination keeps its default (zero) value, unchanged by the
call. -/
theorem C3_scanOne_empty_noRows (env : Env) (zf fuel : Nat) (reg : Registry)
    (n : String) (destInit : Val) (hz : isZeroVal destInit = true) :
    ScanOne1 env zf fuel reg (some (.tPtr (.tStruct n))) destInit [] =
      .err "no rows found" destInit reg := by
  simp [ScanOne1, DeReferencePointer, scanOneLoop, heapGet, hz]

/-- Witness for C3 at the `user` schema with a zero-valued destination. -/
theorem C3_scanOne_empty_noRows_witness :
    isZeroVal (zeroVal envUser 10 (.tStruct "user")) = true ∧
    ScanOne1 envUser 10 10 [] (some (.tPtr (.tStruct "user")))
        (zeroVal envUser 10 (.tStruct "user")) [] =
      .err "no rows found" (zeroVal envUser 10 (.tStruct "user")) [] :=
  ⟨by decide, C3_scanOne_empty_noRows envUser 10 10 [] "user" _ (by decide)⟩

/-! ## Claim C6 -/

/-- C6: metadata analysis of a composite type with two primary-key-tagged
fields fails with the "multiple primary key fields found" error when the
second such field is reached (fields between them must themselves be
plain, so that the loop reaches the second key field). -/
theorem C6_analyzeEntity_multiplePrimaryKey (env : Env) (fuel : Nat) (reg : Registry)
    (n : String) (pre mid post : List GoField) (f1 f2 : GoField)
    (hreg : GetEntityGraphMappingInfo reg (.tStruct n) = none)
    (henv : envFields env n = some (pre ++ f1 :: (mid ++ f2 :: post)))
    (hf1 : f1.primaryKeyTag ≠ "")
    (hf2 : f2.primaryKeyTag ≠ "")
    (hpre : ∀ f ∈ pre, f.primaryKeyTag = "" ∧ f.relationshipTag = "")
    (hmid : ∀ f ∈ mid, f.primaryKeyTag = "" ∧ f.relationshipTag = "") :
    analyzeEntity env (fuel + 1) (.tStruct n) reg =
      .err "multiple primary key fields found"
        (SetEntityGraphMappingInfo reg (.tStruct n) none) := by
  obtain ⟨fm1, hfm1⟩ := analyzeFieldLoop_plain (analyzeEntity env fuel) pre
    (f1 :: (mid ++ f2 :: post)) 0 [] [] none
    (SetEntityGraphMappingInfo reg (.tStruct n) none) hpre
  obtain ⟨fm2, hfm2⟩ := analyzeFieldLoop_plain (analyzeEntity env fuel) mid
    (f2 :: post) (0 + pre.length + 1)
    (assocSet fm1 f1.primaryKeyTag (0 + pre.length)) []
    (some ⟨f1.primaryKeyTag, f1.name⟩)
    (SetEntityGraphMappingInfo reg (.tStruct n) none) hmid
  simp only [analyzeEntity, hreg, Option.isSome_none, Bool.false_eq_true, if_false,
    DeReferencePointer, henv]
  rw [hfm1]
  simp only [analyzeFieldLoop, bne_iff_ne, ne_eq, hf1, not_false_eq_true, if_true]
  rw [hfm2]
  simp only [analyzeFieldLoop, bne_iff_ne, ne_eq, hf2, not_false_eq_true, if_true]

/-- Witness for C6: the two-primary-key schema `dupPkSchema`. -/
theorem C6_analyzeEntity_multiplePrimaryKey_witness :
    GetEntityGraphMappingInfo ([] : Registry) (.tStruct "bad") = none ∧
    envFields envDupPk "bad" =
      some ([] ++ ⟨"A", .tUint, "", "id_a", ""⟩ ::
        ([] ++ ⟨"B", .tUint, "", "id_b", ""⟩ :: [])) ∧
    analyzeEntity envDupPk 10 (.tStruct "bad") [] =
      .err "multiple primary key fields found"
        (SetEntityGraphMappingInfo [] (.tStruct "bad") none) :=
  ⟨by decide, by decide,
    C6_analyzeEntity_multiplePrimaryKey envDupPk 9 [] "bad" [] [] []
      ⟨"A", .tUint, "", "id_a", ""⟩ ⟨"B", .tUint, "", "id_b", ""⟩
      (by decide) (by decide) (by decide) (by decide)
      (by intro f hf; cases hf) (by intro f hf; cases hf)⟩

/-! ## Claim C8 -/

/-- C8 counterexample: after `analyzeEntity` fails on `bad` (duplicate
primary keys), the cycle-guard placeholder stays registered for the life
of the registry, and a later `analyzeEntity` call for the same type
silently returns success without rebuilding anything — the half-built
placeholder registration is reused by a later analysis operation. -/
theorem C8_placeholder_counterexample :
    analyzeEntity envDupPk 10 (.tStruct "bad") [] =
        .err "multiple primary key fields found" [(.tStruct "bad", none)] ∧
    GetEntityGraphMappingInfo [(.tStruct "bad", none)] (.tStruct "bad") =
        some (none : Option MappingInfo) ∧
    analyzeEntity envDupPk 10 (.tStruct "bad") [(.tStruct "bad", none)] =
        .ok [(.tStruct "bad", none)] :=
  ⟨by decide, by decide, by decide⟩

/-- C8 (amended): analysis failure leaves the nil placeholder registered.
A later analysis silently treats the type as registered (immediate
success), but no scan silently reuses the half-built descriptor:
materializing a type whose registry entry is the placeholder aborts
abnormally (nil-descriptor dereference panic), and so does map-one on
any non-empty row set whose destination type has a placeholder entry. -/
theorem C8_placeholder_reuse_behavior :
    (∀ (env : Env) (fuel : Nat) (t : GoType) (reg : Registry) (v : Option MappingInfo),
        GetEntityGraphMappingInfo reg t = some v →
        analyzeEntity env (fuel + 1) t reg = .ok reg) ∧
    (∀ (env : Env) (zf fuel : Nat) (t : GoType) (values : Row) (dest : Nat) (st : St),
        GetEntityGraphMappingInfo st.reg t = some none →
        mapToStruct1 env zf (fuel + 1) t values dest st = .panicked) ∧
    (∀ (env : Env) (zf fuel : Nat) (reg : Registry) (n : String) (destInit : Val)
        (row : Row) (rest : List Row),
        GetEntityGraphMappingInfo reg (.tStruct n) = some none →
        ScanOne1 env zf (fuel + 1) reg (some (.tPtr (.tStruct n))) destInit (row :: rest) =
          .panicked) := by
  refine ⟨?_, ?_, ?_⟩
  · intro env fuel t reg v h
    simp [analyzeEntity, h]
  · intro env zf fuel t values dest st h
    simp [mapToStruct1, h]
  · intro env zf fuel reg n destInit row rest h
    simp [ScanOne1, DeReferencePointer, scanOneLoop, mapToStruct1, h]

/-- Witness for C8 (amended) on the `bad` schema's poisoned registry. -/
theorem C8_placeholder_reuse_behavior_witness :
    analyzeEntity envDupPk 10 (.tStruct "bad") [(.tStruct "bad", none)] =
        .ok [(.tStruct "bad", none)] ∧
    ScanOne1 envDupPk 10 10 [(.tStruct "bad", none)] (some (.tPtr (.tStruct "bad")))
        (.vStruct "bad" [.vUint 0, .vUint 0]) [[("id_a", .vInt 1)]] = .panicked :=
  ⟨C8_placeholder_reuse_behavior.1 envDupPk 9 (.tStruct "bad") [(.tStruct "bad", none)]
      none (by decide),
   C8_placeholder_reuse_behavior.2.2 envDupPk 10 9 [(.tStruct "bad", none)] "bad"
      (.vStruct "bad" [.vUint 0, .vUint 0]) [("id_a", .vInt 1)] [] (by decide)⟩

/-! ## Claims C4 and C9: one-to-one cardinality violations -/

/-- Shared skeleton for C4 and C9: on a row whose root entity already
exists in the identity map, a one-to-one relationship field that already
holds a non-zero value makes `mapRelationships` fail with the
too-many-rows error, which aborts the whole scan. -/
theorem scanOne_one_to_one_second_row_err
    (env : Env) (zf fuel : Nat) (reg : Registry) (n : String) (destInit : Val)
    (pre : List Row) (row : Row) (rest : List Row)
    (st1 st' : St) (mi : MappingInfo) (pk : PrimaryKeyInfo)
    (a b : Nat) (ex : Bool) (i : Nat) (rt0 : GoType) (field : Val)
    (hpre : scanOneLoop (mapToStruct1 env zf (fuel + 1) (.tStruct n)) pre
        ⟨[], reg, [destInit]⟩ = .ok st1)
    (hmem : (assocGet st1.lookup (.tStruct n)).isSome = true)
    (hreg : GetEntityGraphMappingInfo st1.reg (.tStruct n) = some (some mi))
    (hkf : mi.KeyField = some pk)
    (hkey : rowHas row pk.dbPrimaryKeyName = true)
    (hfind : assocGet ((assocGet st1.lookup (.tStruct n)).getD [])
        (rowGet row pk.dbPrimaryKeyName) = some a)
    (hrels : mi.Relationships = [(i, rt0)])
    (hrec : mapToStruct1 env zf fuel (relElemType rt0) row st1.heap.length
        ⟨st1.lookup, st1.reg, st1.heap ++ [zeroVal env zf (relElemType rt0)]⟩ = .ok b ex st')
    (hnz : IsStructPointerWithNonZeroFields (.vPtr (some (heapGet st'.heap b))) = true)
    (hfield : structFieldGet (heapGet st'.heap a) i = some field)
    (hstruct : IsStruct field = true)
    (hfieldnz : isZeroVal (Indirect field) = false) :
    ScanOne1 env zf (fuel + 1) reg (some (.tPtr (.tStruct n))) destInit (pre ++ row :: rest) =
      .err (getTooManyRowsErrorMsg (relElemType rt0)) (heapGet st'.heap 0) st'.reg := by
  obtain ⟨l1, r1, h1⟩ := st1
  have hrel : mapRelLoop1 env zf (mapToStruct1 env zf fuel) row a [(i, rt0)] ⟨l1, r1, h1⟩ =
      .err (getTooManyRowsErrorMsg (relElemType rt0)) st' := by
    simp only [mapRelLoop1, hrec, hnz, hfield, hstruct, hfieldnz, if_true, Bool.not_false,
      Bool.and_self, Bool.true_and, if_false]
  have hstep : mapToStruct1 env zf (fuel + 1) (.tStruct n) row 0 ⟨l1, r1, h1⟩ =
      .err (getTooManyRowsErrorMsg (relElemType rt0)) st' := by
    simp only [mapToStruct1] at *
    simp only [hmem, if_true, hreg, hkf, mapToStructBody, hkey, if_true, hfind, hrels, hrel]
  simp only [ScanOne1, DeReferencePointer]
  rw [scanOneLoop_append, hpre]
  simp only [scanOneLoop, hstep]

/-- C4: a one-to-one relationship field of a root entity that already
holds a non-default value distinct from the newly materialized related
instance makes the scan fail with the "Too many rows for entity"
(TooManyRows) error. -/
theorem C4_one_to_one_distinct_tooManyRows
    (env : Env) (zf fuel : Nat) (reg : Registry) (n : String) (destInit : Val)
    (pre : List Row) (row : Row) (rest : List Row)
    (st1 st' : St) (mi : MappingInfo) (pk : PrimaryKeyInfo)
    (a b : Nat) (ex : Bool) (i : Nat) (rt0 : GoType) (field : Val)
    (hpre : scanOneLoop (mapToStruct1 env zf (fuel + 1) (.tStruct n)) pre
        ⟨[], reg, [destInit]⟩ = .ok st1)
    (hmem : (assocGet st1.lookup (.tStruct n)).isSome = true)
    (hreg : GetEntityGraphMappingInfo st1.reg (.tStruct n) = some (some mi))
    (hkf : mi.KeyField = some pk)
    (hkey : rowHas row pk.dbPrimaryKeyName = true)
    (hfind : assocGet ((assocGet st1.lookup (.tStruct n)).getD [])
        (rowGet row pk.dbPrimaryKeyName) = some a)
    (hrels : mi.Relationships = [(i, rt0)])
    (hrec : mapToStruct1 env zf fuel (relElemType rt0) row st1.heap.length
        ⟨st1.lookup, st1.reg, st1.heap ++ [zeroVal env zf (relElemType rt0)]⟩ = .ok b ex st')
    (hnz : IsStructPointerWithNonZeroFields (.vPtr (some (heapGet st'.heap b))) = true)
    (hfield : structFieldGet (heapGet st'.heap a) i = some field)
    (hstruct : IsStruct field = true)
    (hfieldnz : isZeroVal (Indirect field) = false)
    (_hdistinct : Indirect field ≠ heapGet st'.heap b) :
    ScanOne1 env zf (fuel + 1) reg (some (.tPtr (.tStruct n))) destInit (pre ++ row :: rest) =
      .err (getTooManyRowsErrorMsg (relElemType rt0)) (heapGet st'.heap 0) st'.reg :=
  scanOne_one_to_one_second_row_err env zf fuel reg n destInit pre row rest st1 st' mi pk
    a b ex i rt0 field hpre hmem hreg hkf hkey hfind hrels hrec hnz hfield hstruct hfieldnz

/-- Witness for C4: org 1 first joined with user 1, then with the
distinct user 2. -/
theorem C4_one_to_one_distinct_tooManyRows_witness :
    ScanOne1 envMin 3 (3 + 1) regMin (some (.tPtr (.tStruct "o2f")))
        (zeroVal envMin 3 (.tStruct "o2f")) ([rowOrg1User1] ++ rowOrg1User2 :: []) =
      .err (getTooManyRowsErrorMsg (relElemType (.tStruct "u1f")))
        (heapGet stRelDistinct.heap 0) stRelDistinct.reg :=
  C4_one_to_one_distinct_tooManyRows envMin 3 3 regMin "o2f"
    (zeroVal envMin 3 (.tStruct "o2f")) [rowOrg1User1] rowOrg1User2 [] st1min stRelDistinct
    ⟨some ⟨"org_id", "OrgId"⟩, [("org_id", 0)], [(1, .tStruct "u1f")]⟩ ⟨"org_id", "OrgId"⟩
    0 2 false 1 (.tStruct "u1f") (.vStruct "u1f" [.vUint 1])
    (by decide) (by decide) (by decide) (by decide) (by decide) (by decide) (by decide)
    (by decide) (by decide) (by decide) (by decide) (by decide) (by decide)

/-- C9: once a one-to-one relationship field holds a non-default value,
a further row for the same root fails with "Too many rows for entity"
even when the newly materialized related instance is identical to the
value already held — the check only tests that the existing field value
is non-zero, never that the new value differs. -/
theorem C9_one_to_one_identical_tooManyRows
    (env : Env) (zf fuel : Nat) (reg : Registry) (n : String) (destInit : Val)
    (pre : List Row) (row : Row) (rest : List Row)
    (st1 st' : St) (mi : MappingInfo) (pk : PrimaryKeyInfo)
    (a b : Nat) (ex : Bool) (i : Nat) (rt0 : GoType) (field : Val)
    (hpre : scanOneLoop (mapToStruct1 env zf (fuel + 1) (.tStruct n)) pre
        ⟨[], reg, [destInit]⟩ = .ok st1)
    (hmem : (assocGet st1.lookup (.tStruct n)).isSome = true)
    (hreg : GetEntityGraphMappingInfo st1.reg (.tStruct n) = some (some mi))
    (hkf : mi.KeyField = some pk)
    (hkey : rowHas row pk.dbPrimaryKeyName = true)
    (hfind : assocGet ((assocGet st1.lookup (.tStruct n)).getD [])
        (rowGet row pk.dbPrimaryKeyName) = some a)
    (hrels : mi.Relationships = [(i, rt0)])
    (hrec : mapToStruct1 env zf fuel (relElemType rt0) row st1.heap.length
        ⟨st1.lookup, st1.reg, st1.heap ++ [zeroVal env zf (relElemType rt0)]⟩ = .ok b ex st')
    (hnz : IsStructPointerWithNonZeroFields (.vPtr (some (heapGet st'.heap b))) = true)
    (hfield : structFieldGet (heapGet st'.heap a) i = some field)
    (hstruct : IsStruct field = true)
    (hfieldnz : isZeroVal (Indirect field) = false)
    (_hsame : Indirect field = heapGet st'.heap b) :
    ScanOne1 env zf (fuel + 1) reg (some (.tPtr (.tStruct n))) destInit (pre ++ row :: rest) =
      .err (getTooManyRowsErrorMsg (relElemType rt0)) (heapGet st'.heap 0) st'.reg :=
  scanOne_one_to_one_second_row_err env zf fuel reg n destInit pre row rest st1 st' mi pk
    a b ex i rt0 field hpre hmem hreg hkf hkey hfind hrels hrec hnz hfield hstruct hfieldnz

/-- Witness for C9: org 1 joined twice with the identical user 1 — the
re-materialized related instance is the very instance already stored in
the field (`Indirect field = heapGet stRelSame.heap 1`), yet the scan
errors. -/
theorem C9_one_to_one_identical_tooManyRows_witness :
    ScanOne1 envMin 3 (3 + 1) regMin (some (.tPtr (.tStruct "o2f")))
        (zeroVal envMin 3 (.tStruct "o2f")) ([rowOrg1User1] ++ rowOrg1User1 :: []) =
      .err (getTooManyRowsErrorMsg (relElemType (.tStruct "u1f")))
        (heapGet stRelSame.heap 0) stRelSame.reg :=
  C9_one_to_one_identical_tooManyRows envMin 3 3 regMin "o2f"
    (zeroVal envMin 3 (.tStruct "o2f")) [rowOrg1User1] rowOrg1User1 [] st1min stRelSame
    ⟨some ⟨"org_id", "OrgId"⟩, [("org_id", 0)], [(1, .tStruct "u1f")]⟩ ⟨"org_id", "OrgId"⟩
    0 1 true 1 (.tStruct "u1f") (.vStruct "u1f" [.vUint 1])
    (by decide) (by decide) (by decide) (by decide) (by decide) (by decide) (by decide)
    (by decide) (by decide) (by decide) (by decide) (by decide) (by decide)

/-! ## Claim C5 -/

set_option maxHeartbeats 4000000 in
/-- C5 counterexample: scanning the same org/user join row twice appends
the same related user twice — the one-to-many collection ends with
duplicate entries, refuting "contains no duplicate entries, even when
join fan-out repeats rows". -/
theorem C5_one_to_many_duplicates_counterexample :
    ScanOne1 envMinMany 3 4 regMinMany (some (.tPtr (.tStruct "oM")))
        (zeroVal envMinMany 3 (.tStruct "oM")) [rowOrg1User1, rowOrg1User1] =
      .ok (.vStruct "oM" [.vUint 1,
            .vSlice [.vStruct "u1f" [.vUint 1], .vStruct "u1f" [.vUint 1]]]) regMinMany := by
  simp [ScanOne1, ScanMany1, ScanMany2, scanOneLoop, scanManyLoop1, scanManyLoop2,
    mapToStruct1, mapToStruct2, mapToStructBody, mapRelLoop1, mapRelLoop2, populateLoop,
    setFieldValue1, setFieldValue2, setSliceField1, setSliceField2, appendAll1, appendAll2,
    setPointerFieldWith, setIntField, setUintField, setStringField, setBoolField,
    setStructField, derefValue, zeroVal, envFields, assocGet, assocSet, rowGet, rowHas,
    heapGet, heapSet, lookupStore, structFieldGet, structFieldSet, relElemType,
    DeReferencePointer, GetEntityGraphMappingInfo, SetEntityGraphMappingInfo,
    isZeroVal, isZeroAll, IsStruct, IsStructPointerWithNonZeroFields, Indirect,
    Val.beq, Val.beqList, GoType.beq, valBeq_def, goTypeBeq_def, typeOfVal,
    assignOrConvertElem, convertVal, buildResult1,
    fieldIndexByName, envMinMany, regMinMany, minUserSchema, minOrgManySchema,
    rowOrg1User1, rowOrg1User2, List.getD, List.findIdx?, List.find?]

/-- A non-nil struct pointer with non-zero fields points at a struct. -/
theorem structPtrNonZero_shape (v : Val)
    (h : IsStructPointerWithNonZeroFields (.vPtr (some v)) = true) :
    ∃ nm fs, v = .vStruct nm fs := by
  cases v <;>
    first
      | exact ⟨_, _, rfl⟩
      | simp [IsStructPointerWithNonZeroFields] at h

/-- C5 (amended): a one-to-many (slice-shaped) relationship field
appends the currently materialized related instance once per row whose
related data is non-zero, always at the end of the slice (row order);
nothing deduplicates, so a repeated root/related pair appends a
duplicate entry. -/
theorem C5_one_to_many_appends_per_row
    (env : Env) (zf : Nat) (recur : GoType → Row → Nat → St → MRes)
    (values : Row) (objAddr i : Nat) (et : GoType) (st st' : St)
    (b : Nat) (ex : Bool) (l : List Val) (parentUpd : Val)
    (hrec : recur (relElemType (.tSlice et)) values st.heap.length
        ⟨st.lookup, st.reg, st.heap ++ [zeroVal env zf (relElemType (.tSlice et))]⟩ =
        .ok b ex st')
    (hnz : IsStructPointerWithNonZeroFields (.vPtr (some (heapGet st'.heap b))) = true)
    (hfield : structFieldGet (heapGet st'.heap objAddr) i = some (.vSlice l))
    (htype : typeOfVal (heapGet st'.heap b) = some et)
    (hset : structFieldSet (heapGet st'.heap objAddr) i
        (.vSlice (l ++ [heapGet st'.heap b])) = some parentUpd) :
    mapRelLoop1 env zf recur values objAddr [(i, .tSlice et)] st =
      .ok ⟨st'.lookup, st'.reg, heapSet st'.heap objAddr parentUpd⟩ := by
  obtain ⟨nm, fs, hshape⟩ := structPtrNonZero_shape _ hnz
  have het : et = .tStruct nm := by
    rw [hshape] at htype
    simp only [typeOfVal, Option.some_inj] at htype
    exact htype.symm
  subst het
  simp only [relElemType, DeReferencePointer] at hrec
  simp only [mapRelLoop1, relElemType, DeReferencePointer, hrec, hnz, if_true, hfield]
  rw [hshape] at hset ⊢
  simp only [IsStruct, Bool.false_and, Bool.not_false, if_false,
    setFieldValue1, derefValue, setSliceField1, assignOrConvertElem, typeOfVal,
    beq_self_eq_true, if_true, hset]
  simp [mapRelLoop1]

/-- Witness for C5 (amended): the second occurrence of the org-1/user-1
row appends user 1 again behind the existing entry. -/
theorem C5_one_to_many_appends_per_row_witness :
    mapRelLoop1 envMinMany 3 (mapToStruct1 envMinMany 3 3) rowOrg1User1 0
        [(1, .tSlice (.tStruct "u1f"))] st1many =
      .ok ⟨stManyRel.lookup, stManyRel.reg,
        heapSet stManyRel.heap 0
          (.vStruct "oM" [.vUint 1,
            .vSlice [.vStruct "u1f" [.vUint 1], .vStruct "u1f" [.vUint 1]]])⟩ :=
  C5_one_to_many_appends_per_row envMinMany 3 (mapToStruct1 envMinMany 3 3) rowOrg1User1
    0 1 (.tStruct "u1f") st1many stManyRel 1 true [.vStruct "u1f" [.vUint 1]]
    (.vStruct "oM" [.vUint 1, .vSlice [.vStruct "u1f" [.vUint 1], .vStruct "u1f" [.vUint 1]]])
    (by decide) (by decide) (by decide) (by decide) (by decide)

/-! ## Claim C1 -/

set_option maxHeartbeats 4000000 in
/-- C1 counterexample: on the fan-out rows (org 1, user 1), (org 1,
user 2), the second variant of `ScanMany` emits org 1 with only
`[user 1]` — the snapshot taken when the root was first seen — although
the later row for the same root merged user 2 into the entity, as the
first variant's output shows.  The "final fully-merged state" part of
the claim fails for the second variant. -/
theorem C1_scanMany2_first_sight_counterexample :
    ScanMany2 envMinMany 3 4 regMinMany (some (.tPtr (.tSlice (.tStruct "oM"))))
        [rowOrg1User1, rowOrg1User2] =
      .ok [.vStruct "oM" [.vUint 1, .vSlice [.vStruct "u1f" [.vUint 1]]]] regMinMany ∧
    ScanMany1 envMinMany 3 4 regMinMany (some (.tPtr (.tSlice (.tStruct "oM"))))
        [rowOrg1User1, rowOrg1User2] =
      .ok [.vStruct "oM" [.vUint 1,
            .vSlice [.vStruct "u1f" [.vUint 1], .vStruct "u1f" [.vUint 2]]]] regMinMany := by
  constructor
  · simp [ScanOne1, ScanMany1, ScanMany2, scanOneLoop, scanManyLoop1, scanManyLoop2,
    mapToStruct1, mapToStruct2, mapToStructBody, mapRelLoop1, mapRelLoop2, populateLoop,
    setFieldValue1, setFieldValue2, setSliceField1, setSliceField2, appendAll1, appendAll2,
    setPointerFieldWith, setIntField, setUintField, setStringField, setBoolField,
    setStructField, derefValue, zeroVal, envFields, assocGet, assocSet, rowGet, rowHas,
    heapGet, heapSet, lookupStore, structFieldGet, structFieldSet, relElemType,
    DeReferencePointer, GetEntityGraphMappingInfo, SetEntityGraphMappingInfo,
    isZeroVal, isZeroAll, IsStruct, IsStructPointerWithNonZeroFields, Indirect,
    Val.beq, Val.beqList, GoType.beq, valBeq_def, goTypeBeq_def, typeOfVal,
    assignOrConvertElem, convertVal, buildResult1,
    fieldIndexByName, envMinMany, regMinMany, minUserSchema, minOrgManySchema,
    rowOrg1User1, rowOrg1User2, List.getD, List.findIdx?, List.find?]
  · simp [ScanOne1, ScanMany1, ScanMany2, scanOneLoop, scanManyLoop1, scanManyLoop2,
    mapToStruct1, mapToStruct2, mapToStructBody, mapRelLoop1, mapRelLoop2, populateLoop,
    setFieldValue1, setFieldValue2, setSliceField1, setSliceField2, appendAll1, appendAll2,
    setPointerFieldWith, setIntField, setUintField, setStringField, setBoolField,
    setStructField, derefValue, zeroVal, envFields, assocGet, assocSet, rowGet, rowHas,
    heapGet, heapSet, lookupStore, structFieldGet, structFieldSet, relElemType,
    DeReferencePointer, GetEntityGraphMappingInfo, SetEntityGraphMappingInfo,
    isZeroVal, isZeroAll, IsStruct, IsStructPointerWithNonZeroFields, Indirect,
    Val.beq, Val.beqList, GoType.beq, valBeq_def, goTypeBeq_def, typeOfVal,
    assignOrConvertElem, convertVal, buildResult1,
    fieldIndexByName, envMinMany, regMinMany, minUserSchema, minOrgManySchema,
    rowOrg1User1, rowOrg1User2, List.getD, List.findIdx?, List.find?]

theorem assocGet_assocSet_self {α β : Type} [BEq α] [LawfulBEq α]
    (l : List (α × β)) (k : α) (v : β) : assocGet (assocSet l k v) k = some v := by
  induction l with
  | nil => simp [assocSet, assocGet]
  | cons p t ih =>
    obtain ⟨a, b⟩ := p
    by_cases h : (a == k) = true
    · simp [assocSet, h, assocGet]
    · simp only [assocSet, h, Bool.false_eq_true, if_false]
      simpa [assocGet, List.find?, h] using ih

theorem assocGet_assocSet_ne {α β : Type} [BEq α] [LawfulBEq α]
    (l : List (α × β)) (k k' : α) (v : β) (h : k' ≠ k) :
    assocGet (assocSet l k v) k' = assocGet l k' := by
  have hkk : (k == k') = false := by
    simp only [beq_eq_false_iff_ne, ne_eq]
    exact fun e => h e.symm
  induction l with
  | nil => simp [assocSet, assocGet, List.find?, hkk]
  | cons p t ih =>
    obtain ⟨a, b⟩ := p
    by_cases ha : (a == k) = true
    · have haeq : a = k := eq_of_beq ha
      subst haeq
      simp [assocSet, assocGet, List.find?, hkk]
    · by_cases ha' : (a == k') = true
      · simp [assocSet, ha, assocGet, List.find?, ha']
      · simp only [assocSet, ha, Bool.false_eq_true, if_false]
        simpa [assocGet, List.find?, ha'] using ih

/-- The `ScanMany` (first variant) row loop only ever appends a key to
`idOrder`, and only on first sight: the order list stays duplicate-free,
grows at the end, and always matches the domain of `resultMap`. -/
theorem scanManyLoop1_order_invariant (env : Env) (zf fuel : Nat) (elT : GoType) :
    ∀ (rows : List Row) (st : St) (rm : List (Val × Nat)) (io : List Val)
      (stf : St) (rmf : List (Val × Nat)) (iof : List Val),
      io.Nodup → (∀ k, k ∈ io ↔ (assocGet rm k).isSome = true) →
      scanManyLoop1 env zf fuel elT rows st rm io = .ok stf rmf iof →
      iof.Nodup ∧ (∃ tail, iof = io ++ tail) ∧
        (∀ k, k ∈ iof ↔ (assocGet rmf k).isSome = true) := by
  intro rows
  induction rows with
  | nil =>
    intro st rm io stf rmf iof h1 h2 h3
    rw [scanManyLoop1] at h3
    cases h3
    exact ⟨h1, ⟨[], by simp⟩, h2⟩
  | cons row rest ih =>
    intro st rm io stf rmf iof h1 h2 h3
    rw [scanManyLoop1] at h3
    split at h3
    · exact absurd h3 (by simp)
    · exact absurd h3 (by simp)
    · rename_i x valAddr existed st' hmap
      split at h3
      · rename_i xg mi hGet
        split at h3
        · rename_i pk hkf
          split at h3
          · rename_i tname flds hobj
            split at h3
            · rename_i idx hidx
              split at h3
              · rename_i actualValue hav
                split at h3
                · exact ih st' rm io stf rmf iof h1 h2 h3
                · rename_i hnew
                  have hnotin : actualValue ∉ io := fun hmem => hnew ((h2 actualValue).mp hmem)
                  have h1' : (io ++ [actualValue]).Nodup := by
                    simp [List.nodup_append, h1, hnotin]
                  have h2' : ∀ k, k ∈ io ++ [actualValue] ↔
                      (assocGet (assocSet rm actualValue valAddr) k).isSome = true := by
                    intro k
                    by_cases hk : k = actualValue
                    · subst hk
                      simp [assocGet_assocSet_self]
                    · simp [List.mem_append, hk,
                        assocGet_assocSet_ne rm actualValue k valAddr hk, h2 k]
                  obtain ⟨hnd, ⟨tail, htail⟩, hmem⟩ := ih st' (assocSet rm actualValue valAddr)
                    (io ++ [actualValue]) stf rmf iof h1' h2' h3
                  refine ⟨hnd, ⟨actualValue :: tail, ?_⟩, hmem⟩
                  rw [htail]
                  simp
              · exact absurd h3 (by simp)
            · exact absurd h3 (by simp)
          · exact absurd h3 (by simp)
        · exact absurd h3 (by simp)
      · exact absurd h3 (by simp)

/-- Walking the order list succeeds and reads each entity out of the
(final) heap when every key is bound in `resultMap`. -/
theorem buildResult1_complete (heap : Heap) (rm : List (Val × Nat)) :
    ∀ io : List Val, (∀ k ∈ io, (assocGet rm k).isSome = true) →
      buildResult1 heap rm io =
        some (io.map (fun k => heapGet heap ((assocGet rm k).getD 0))) := by
  intro io
  induction io with
  | nil => intro _; simp [buildResult1]
  | cons k rest ih =>
    intro h
    obtain ⟨a, ha⟩ := Option.isSome_iff_exists.mp (h k (by simp))
    simp [buildResult1, ha, ih (fun x hx => h x (by simp [hx]))]

/-- `ScanMany` (first variant) returns exactly the order-list walk over
the final post-loop heap. -/
theorem scanMany1_output (env : Env) (zf fuel : Nat) (reg : Registry) (elT : GoType)
    (rows : List Row) (stf : St) (rmf : List (Val × Nat)) (iof : List Val)
    (h : scanManyLoop1 env zf fuel elT rows ⟨[], reg, []⟩ [] [] = .ok stf rmf iof) :
    ScanMany1 env zf fuel reg (some (.tPtr (.tSlice elT))) rows =
      .ok (iof.map (fun k => heapGet stf.heap ((assocGet rmf k).getD 0))) stf.reg := by
  have hinv := scanManyLoop1_order_invariant env zf fuel elT rows ⟨[], reg, []⟩ [] [] stf rmf iof
    (by simp) (by simp [assocGet]) h
  simp only [ScanMany1, DeReferencePointer, h]
  rw [buildResult1_complete stf.heap rmf iof (fun k hk => (hinv.2.2 k).mp hk)]

/-- C1 (amended, first variant): map-many produces one entry per
distinct root primary-key value — the order list is duplicate-free and
only grows at the end, on first sight of a key, so output order is
first-seen root order — and the output is built after exhaustion by
walking the order list and reading each root entity's state from the
final heap, so each entry carries the merges of all later fan-out rows
(demonstrated concretely on interleaved fan-out rows).  The second
variant keeps the one-entry-per-root/first-seen-order property but
snapshots each root at its first row (see the counterexample). -/
theorem C1_scanMany1_first_seen_final_state :
    (∀ (env : Env) (zf fuel : Nat) (elT : GoType) (rows : List Row) (st : St)
        (rm : List (Val × Nat)) (io : List Val) (stf : St) (rmf : List (Val × Nat))
        (iof : List Val),
        io.Nodup → (∀ k, k ∈ io ↔ (assocGet rm k).isSome = true) →
        scanManyLoop1 env zf fuel elT rows st rm io = .ok stf rmf iof →
        iof.Nodup ∧ (∃ tail, iof = io ++ tail) ∧
          (∀ k, k ∈ iof ↔ (assocGet rmf k).isSome = true)) ∧
    (∀ (env : Env) (zf fuel : Nat) (reg : Registry) (elT : GoType) (rows : List Row)
        (stf : St) (rmf : List (Val × Nat)) (iof : List Val),
        scanManyLoop1 env zf fuel elT rows ⟨[], reg, []⟩ [] [] = .ok stf rmf iof →
        ScanMany1 env zf fuel reg (some (.tPtr (.tSlice elT))) rows =
          .ok (iof.map (fun k => heapGet stf.heap ((assocGet rmf k).getD 0))) stf.reg) ∧
    ScanMany1 envMinMany 3 5 regMinMany (some (.tPtr (.tSlice (.tStruct "oM"))))
        [rowOrg1User1, rowOrg2User3, rowOrg1User2] =
      .ok [.vStruct "oM" [.vUint 1,
             .vSlice [.vStruct "u1f" [.vUint 1], .vStruct "u1f" [.vUint 2]]],
           .vStruct "oM" [.vUint 2, .vSlice [.vStruct "u1f" [.vUint 3]]]] regMinMany := by
  refine ⟨scanManyLoop1_order_invariant, scanMany1_output, ?_⟩
  simp [ScanOne1, ScanMany1, ScanMany2, scanOneLoop, scanManyLoop1, scanManyLoop2,
    mapToStruct1, mapToStruct2, mapToStructBody, mapRelLoop1, mapRelLoop2, populateLoop,
    setFieldValue1, setFieldValue2, setSliceField1, setSliceField2, appendAll1, appendAll2,
    setPointerFieldWith, setIntField, setUintField, setStringField, setBoolField,
    setStructField, derefValue, zeroVal, envFields, assocGet, assocSet, rowGet, rowHas,
    heapGet, heapSet, lookupStore, structFieldGet, structFieldSet, relElemType,
    DeReferencePointer, GetEntityGraphMappingInfo, SetEntityGraphMappingInfo,
    isZeroVal, isZeroAll, IsStruct, IsStructPointerWithNonZeroFields, Indirect,
    Val.beq, Val.beqList, GoType.beq, valBeq_def, goTypeBeq_def, typeOfVal,
    assignOrConvertElem, convertVal, buildResult1,
    fieldIndexByName, envMinMany, regMinMany, minUserSchema, minOrgManySchema,
    rowOrg1User1, rowOrg1User2, rowOrg2User3, List.getD, List.findIdx?, List.find?]

/-! ## Claim C2 -/

theorem listGet?_isSome {α : Type} (l : List α) (i : Nat) (h : i < l.length) :
    ∃ x, l.get? i = some x :=
  ⟨l[i], by simp [List.get?_eq_getElem?, List.getElem?_eq_getElem h]⟩

theorem heapGet_heapSet_self (h : Heap) (a : Nat) (v : Val) (ha : a < h.length) :
    heapGet (heapSet h a v) a = v := by
  simp [heapGet, heapSet, List.getD, List.get?_eq_getElem?, List.getElem?_set_self, ha]

/-- Per-field characterization of the population loop (`mapToStruct`
lines 219-232): from a struct with live field values `fvs`, with
pairwise-distinct valid mapped indices and succeeding coercions, the
loop succeeds; a mapped field ends at the coerced column value when the
column is present and non-null and keeps its starting value when the
column is null or absent; fields outside the mapping are untouched. -/
theorem populateLoop_fields (setF : GoType → Val → Val → SRes) (flds : List GoField)
    (values : Row) (dest : Nat) :
    ∀ (fm : List (String × Nat)) (heap : Heap) (n : String) (fvs : List Val),
      dest < heap.length →
      heapGet heap dest = .vStruct n fvs →
      fvs.length = flds.length →
      (∀ p ∈ fm, p.2 < flds.length) →
      (fm.map Prod.snd).Nodup →
      (∀ p ∈ fm, ∀ fld fv, flds.get? p.2 = some fld → fvs.get? p.2 = some fv →
        rowGet values p.1 ≠ .vNull → ∃ cv, setF fld.typ fv (rowGet values p.1) = .ok cv) →
      ∃ heap' fvs', populateLoop setF flds values dest fm heap = .ok heap' ∧
        heap'.length = heap.length ∧
        heapGet heap' dest = .vStruct n fvs' ∧
        fvs'.length = fvs.length ∧
        (∀ j, j ∉ fm.map Prod.snd → fvs'.get? j = fvs.get? j) ∧
        (∀ p ∈ fm,
          (rowGet values p.1 = .vNull → fvs'.get? p.2 = fvs.get? p.2) ∧
          (rowGet values p.1 ≠ .vNull → ∀ fld fv cv, flds.get? p.2 = some fld →
            fvs.get? p.2 = some fv → setF fld.typ fv (rowGet values p.1) = .ok cv →
            fvs'.get? p.2 = some cv)) := by
  intro fm
  induction fm with
  | nil =>
    intro heap n fvs hdest hget hlen _ _ _
    exact ⟨heap, fvs, by simp [populateLoop], rfl, hget, rfl, fun j _ => rfl,
      fun p hp => absurd hp (by simp)⟩
  | cons q rest ih =>
    intro heap n fvs hdest hget hlen hvalid hnd hco
    obtain ⟨col, idx⟩ := q
    have hidxlt : idx < flds.length := hvalid (col, idx) (by simp)
    have hidxlt' : idx < fvs.length := hlen ▸ hidxlt
    obtain ⟨fld, hfld⟩ := listGet?_isSome flds idx hidxlt
    obtain ⟨fv, hfv⟩ := listGet?_isSome fvs idx hidxlt'
    have hndrest : (rest.map Prod.snd).Nodup := (List.nodup_cons.mp hnd).2
    have hidxnotin : idx ∉ rest.map Prod.snd := (List.nodup_cons.mp hnd).1
    by_cases hnull : rowGet values col = .vNull
    · -- NULL column: the field is skipped
      obtain ⟨heap', fvs', hrun, hlen', hget', hfvslen, huntouched, hfields⟩ :=
        ih heap n fvs hdest hget hlen (fun p hp => hvalid p (by simp [hp])) hndrest
          (fun p hp => hco p (by simp [hp]))
      refine ⟨heap', fvs', ?_, hlen', hget', hfvslen, ?_, ?_⟩
      · rw [populateLoop, if_pos (by simp [valBeq_def, valBeq_iff, hnull])]
        exact hrun
      · intro j hj
        exact huntouched j (by simp at hj; simp [hj])
      · intro p hp
        rcases List.mem_cons.mp hp with hph | hpr
        · subst hph
          constructor
          · intro _
            exact huntouched idx hidxnotin
          · intro hne
            exact absurd hnull hne
        · exact hfields p hpr
    · -- non-null column: the field is converted and set
      obtain ⟨cv, hcv⟩ := hco (col, idx) (by simp) fld fv hfld hfv hnull
      have hset1 : structFieldGet (heapGet heap dest) idx = some fv := by
        rw [hget]; simpa [structFieldGet] using hfv
      have hset2 : structFieldSet (heapGet heap dest) idx cv =
          some (.vStruct n (fvs.set idx cv)) := by
        rw [hget]; simp [structFieldSet, hidxlt']
      have hget1 : heapGet (heapSet heap dest (.vStruct n (fvs.set idx cv))) dest =
          .vStruct n (fvs.set idx cv) := heapGet_heapSet_self _ _ _ hdest
      have htransfer : ∀ p ∈ rest, (fvs.set idx cv).get? p.2 = fvs.get? p.2 := by
        intro p hp
        have : p.2 ≠ idx := fun he =>
          hidxnotin (he ▸ List.mem_map_of_mem Prod.snd hp)
        simp [List.get?_eq_getElem?, List.getElem?_set_ne (fun h => this h.symm)]
      obtain ⟨heap', fvs', hrun, hlen', hget', hfvslen, huntouched, hfields⟩ :=
        ih (heapSet heap dest (.vStruct n (fvs.set idx cv))) n (fvs.set idx cv)
          (by simpa [heapSet] using hdest) hget1 (by simpa using hlen)
          (fun p hp => hvalid p (by simp [hp])) hndrest
          (fun p hp fld' fv' hfld' hfv' hne =>
            hco p (by simp [hp]) fld' fv' hfld' (by rw [← htransfer p hp]; exact hfv') hne)
      refine ⟨heap', fvs', ?_, by simpa [heapSet] using hlen', hget',
        by simpa using hfvslen, ?_, ?_⟩
      · rw [populateLoop, if_neg (by simp [valBeq_def, valBeq_iff, hnull])]
        simp only [hset1, hfld, hcv, hset2]
        exact hrun
      · intro j hj
        simp only [List.map_cons, List.mem_cons, not_or] at hj
        rw [huntouched j hj.2]
        simp [List.get?_eq_getElem?, List.getElem?_set_ne (fun h => hj.1 h.symm)]
      · intro p hp
        rcases List.mem_cons.mp hp with hph | hpr
        · subst hph
          refine ⟨fun h0 => absurd h0 hnull, fun _ fld' fv' cv' hfld' hfv' hcv' => ?_⟩
          rw [hfld] at hfld'
          rw [hfv] at hfv'
          cases hfld'
          cases hfv'
          rw [hcv] at hcv'
          cases hcv'
          rw [huntouched idx hidxnotin]
          simp [List.get?_eq_getElem?, List.getElem?_set_self, hidxlt']
        · obtain ⟨hnullp, hcop⟩ := hfields p hpr
          refine ⟨fun h0 => by rw [hnullp h0]; exact htransfer p hpr, ?_⟩
          intro hne fld' fv' cv' hfld' hfv' hcv'
          exact hcop hne fld' fv' cv' hfld' (by rw [htransfer p hpr]; exact hfv') hcv'

/-- C2 counterexample: a row set containing exactly one matching row
whose single mapped, present, non-null column coerces to the Go zero
value.  The population succeeds, every mapped non-null column is
correctly coerced — yet `ScanOne` returns the NoRows error instead of
success, because the final `IsZeroValue` check cannot distinguish "no
row matched" from "the one matching row carried zero values". -/
theorem C2_scanOne_zero_row_counterexample :
    ScanOne1 envMin 3 4 regMin (some (.tPtr (.tStruct "u1f")))
        (zeroVal envMin 3 (.tStruct "u1f")) [[("user_id", .vInt 0)]] =
      .err "no rows found" (.vStruct "u1f" [.vUint 0]) regMin := by
  decide

/-- C2 (amended): map-one on a single matching row (key column present,
mapped indices valid and pairwise distinct, coercions defined, no
relationship fields) populates per column: a mapped, present, non-null
column is coerced into its field, a null or absent column leaves the
field at its incoming (default) value, unmapped fields are untouched —
but the call returns success only when the populated destination is not
entirely zero-valued; otherwise it returns the NoRows error. -/
theorem C2_scanOne_single_row_fields (env : Env) (zf fuel : Nat) (reg : Registry)
    (n : String) (mi : MappingInfo) (pk : PrimaryKeyInfo) (flds : List GoField)
    (row : Row) (fvs0 : List Val)
    (hmi : GetEntityGraphMappingInfo reg (.tStruct n) = some (some mi))
    (hpk : mi.KeyField = some pk)
    (hrel : mi.Relationships = [])
    (hflds : envFields env n = some flds)
    (hkey : rowHas row pk.dbPrimaryKeyName = true)
    (hlen : fvs0.length = flds.length)
    (hvalid : ∀ p ∈ mi.FieldMapping, p.2 < flds.length)
    (hnd : (mi.FieldMapping.map Prod.snd).Nodup)
    (hco : ∀ p ∈ mi.FieldMapping, ∀ fld fv, flds.get? p.2 = some fld →
      fvs0.get? p.2 = some fv → rowGet row p.1 ≠ .vNull →
      ∃ cv, setFieldValue1 env zf fld.typ fv (rowGet row p.1) = .ok cv) :
    ∃ fvs',
      ScanOne1 env zf (fuel + 1) reg (some (.tPtr (.tStruct n))) (.vStruct n fvs0) [row] =
        (if isZeroVal (.vStruct n fvs') then
          .err "no rows found" (.vStruct n fvs') reg
         else .ok (.vStruct n fvs') reg) ∧
      fvs'.length = fvs0.length ∧
      (∀ j, j ∉ mi.FieldMapping.map Prod.snd → fvs'.get? j = fvs0.get? j) ∧
      (∀ p ∈ mi.FieldMapping,
        (rowGet row p.1 = .vNull → fvs'.get? p.2 = fvs0.get? p.2) ∧
        (rowGet row p.1 ≠ .vNull → ∀ fld fv cv, flds.get? p.2 = some fld →
          fvs0.get? p.2 = some fv →
          setFieldValue1 env zf fld.typ fv (rowGet row p.1) = .ok cv →
          fvs'.get? p.2 = some cv)) := by
  obtain ⟨heap1, fvs', hpop, hlen1, hget1, hfvslen, huntouched, hfields⟩ :=
    populateLoop_fields (setFieldValue1 env zf) flds row 0 mi.FieldMapping
      [.vStruct n fvs0] n fvs0 (by simp) (by simp [heapGet]) hlen hvalid hnd hco
  refine ⟨fvs', ?_, hfvslen, huntouched, hfields⟩
  have hone : mapToStruct1 env zf (fuel + 1) (.tStruct n) row 0 ⟨[], reg, [.vStruct n fvs0]⟩ =
      .ok 0 false ⟨lookupStore [((.tStruct n : GoType), ([] : List (Val × Nat)))]
        (.tStruct n) (rowGet row pk.dbPrimaryKeyName) 0, reg, heap1⟩ := by
    rw [mapToStruct1]
    simp only [assocGet, List.find?, Option.isSome_none, Bool.false_eq_true, if_false,
      assocSet, hmi]
    simp only [hpk]
    rw [mapToStructBody, if_pos hkey]
    simp [assocGet, List.find?, beq_self_eq_true, hflds, hpop, hrel, mapRelLoop1]
  rw [ScanOne1]
  simp only [DeReferencePointer, scanOneLoop, hone, hget1]

/-- Witness for C2 (amended): a single row with `user_id = 7` maps into
a fresh one-field user as `UserId = 7`, and the scan succeeds. -/
theorem C2_scanOne_single_row_fields_witness :
    ScanOne1 envMin 3 4 regMin (some (.tPtr (.tStruct "u1f")))
        (.vStruct "u1f" [.vUint 0]) [[("user_id", .vInt 7)]] =
      .ok (.vStruct "u1f" [.vUint 7]) regMin := by
  obtain ⟨fvs', heq, hlen, _, hfields⟩ :=
    C2_scanOne_single_row_fields envMin 3 3 regMin "u1f"
      ⟨some ⟨"user_id", "UserId"⟩, [("user_id", 0)], []⟩ ⟨"user_id", "UserId"⟩
      [⟨"UserId", .tUint, "", "user_id", ""⟩] [("user_id", .vInt 7)] [.vUint 0]
      (by decide) (by decide) (by decide) (by decide) (by decide) (by decide)
      (by decide) (by decide)
      (by
        intro p hp fld fv hfld hfv hne
        simp only [List.mem_singleton] at hp
        subst hp
        simp only [List.get?_cons_zero, Option.some.injEq] at hfld hfv
        subst hfld
        subst hfv
        exact ⟨.vUint 7, by decide⟩)
  have hv0 : fvs'.get? 0 = some (.vUint 7) :=
    (hfields ("user_id", 0) (by decide)).2 (by decide)
      ⟨"UserId", .tUint, "", "user_id", ""⟩ (.vUint 0) (.vUint 7)
      (by decide) (by decide) (by decide)
  match fvs', hlen, hv0, heq with
  | [v], _, hv0, heq =>
    simp only [List.get?_cons_zero, Option.some.injEq] at hv0
    subst hv0
    rw [heq]
    decide

set_option maxHeartbeats 4000000 in
/-- Witness for C1 (amended) on the two fan-out rows: the loop result is
concrete, and the output read from the final heap carries the second
row's merge. -/
theorem C1_scanMany1_first_seen_final_state_witness :
    scanManyLoop1 envMinMany 3 4 (.tStruct "oM") [rowOrg1User1, rowOrg1User2]
        ⟨[], regMinMany, []⟩ [] [] = .ok stfC1 [(.vUint 1, 0)] [.vUint 1] ∧
    ScanMany1 envMinMany 3 4 regMinMany (some (.tPtr (.tSlice (.tStruct "oM"))))
        [rowOrg1User1, rowOrg1User2] =
      .ok (([Val.vUint 1]).map
            (fun k => heapGet stfC1.heap ((assocGet [((Val.vUint 1), 0)] k).getD 0)))
        stfC1.reg := by
  constructor
  · simp [ScanOne1, ScanMany1, ScanMany2, scanOneLoop, scanManyLoop1, scanManyLoop2,
      mapToStruct1, mapToStruct2, mapToStructBody, mapRelLoop1, mapRelLoop2, populateLoop,
      setFieldValue1, setFieldValue2, setSliceField1, setSliceField2, appendAll1, appendAll2,
      setPointerFieldWith, setIntField, setUintField, setStringField, setBoolField,
      setStructField, derefValue, zeroVal, envFields, assocGet, assocSet, rowGet, rowHas,
      heapGet, heapSet, lookupStore, structFieldGet, structFieldSet, relElemType,
      DeReferencePointer, GetEntityGraphMappingInfo, SetEntityGraphMappingInfo,
      isZeroVal, isZeroAll, IsStruct, IsStructPointerWithNonZeroFields, Indirect,
      Val.beq, Val.beqList, GoType.beq, valBeq_def, goTypeBeq_def, typeOfVal,
      assignOrConvertElem, convertVal, buildResult1, fieldIndexByName,
      envMinMany, regMinMany, stfC1, minUserSchema, minOrgManySchema,
      rowOrg1User1, rowOrg1User2, List.getD, List.findIdx?, List.find?]
  · refine C1_scanMany1_first_seen_final_state.2.1 envMinMany 3 4 regMinMany (.tStruct "oM")
      [rowOrg1User1, rowOrg1User2] stfC1 [((Val.vUint 1), 0)] [Val.vUint 1] ?_
    simp [ScanOne1, ScanMany1, ScanMany2, scanOneLoop, scanManyLoop1, scanManyLoop2,
      mapToStruct1, mapToStruct2, mapToStructBody, mapRelLoop1, mapRelLoop2, populateLoop,
      setFieldValue1, setFieldValue2, setSliceField1, setSliceField2, appendAll1, appendAll2,
      setPointerFieldWith, setIntField, setUintField, setStringField, setBoolField,
      setStructField, derefValue, zeroVal, envFields, assocGet, assocSet, rowGet, rowHas,
      heapGet, heapSet, lookupStore, structFieldGet, structFieldSet, relElemType,
      DeReferencePointer, GetEntityGraphMappingInfo, SetEntityGraphMappingInfo,
      isZeroVal, isZeroAll, IsStruct, IsStructPointerWithNonZeroFields, Indirect,
      Val.beq, Val.beqList, GoType.beq, valBeq_def, goTypeBeq_def, typeOfVal,
      assignOrConvertElem, convertVal, buildResult1, fieldIndexByName,
      envMinMany, regMinMany, stfC1, minUserSchema, minOrgManySchema,
      rowOrg1User1, rowOrg1User2, List.getD, List.findIdx?, List.find?]

/-! ## Claim C7 -/

theorem assocGet_mem {α β : Type} [BEq α] [LawfulBEq α] (l : List (α × β)) (k : α) (v : β)
    (h : assocGet l k = some v) : (k, v) ∈ l := by
  induction l with
  | nil => simp [assocGet] at h
  | cons p t ih =>
    obtain ⟨a, b⟩ := p
    by_cases ha : (a == k) = true
    · have hae : a = k := eq_of_beq ha
      subst hae
      simp only [assocGet, List.find?, ha] at h
      have hbv : b = v := by simpa using h
      subst hbv
      exact List.mem_cons_self _ _
    · simp only [assocGet, List.find?, ha] at h
      exact List.mem_cons_of_mem _ (ih h)

theorem mem_assocSet {α β : Type} [BEq α] (l : List (α × β)) (k : α) (v : β) (p : α × β)
    (h : p ∈ assocSet l k v) : p = (k, v) ∨ p ∈ l := by
  induction l with
  | nil => simpa [assocSet] using h
  | cons q t ih =>
    obtain ⟨a, b⟩ := q
    by_cases ha : (a == k) = true
    · simp only [assocSet, ha, if_true] at h
      rcases List.mem_cons.mp h with h1 | h2
      · exact Or.inl h1
      · exact Or.inr (List.mem_cons_of_mem _ h2)
    · simp only [assocSet, ha, Bool.false_eq_true, if_false] at h
      rcases List.mem_cons.mp h with h1 | h2
      · exact Or.inr (by simp [h1])
      · rcases ih h2 with h3 | h4
        · exact Or.inl h3
        · exact Or.inr (List.mem_cons_of_mem _ h4)

/-- Under the invariant, a complete entry's value is canonical. -/
theorem regOK_get (env : Env) (reg : Registry) (t : GoType) (mi : MappingInfo)
    (hok : regOK env reg = true) (h : assocGet reg t = some (some mi)) :
    infoOf env t = some mi := by
  have hmem := assocGet_mem reg t (some mi) h
  have hall := (List.all_eq_true.mp hok) (t, some mi) hmem
  simpa using hall

theorem regCompLE_refl (r : Registry) : regCompLE r r := fun _ h => h

theorem regCompLE_trans {r₁ r₂ r₃ : Registry} (h₁ : regCompLE r₁ r₂)
    (h₂ : regCompLE r₂ r₃) : regCompLE r₁ r₃ := fun t h => h₂ t (h₁ t h)

/-- Between invariant-satisfying registries, growth of complete entries
preserves complete lookups with their exact values. -/
theorem regGet_transfer (env : Env) (r₁ r₂ : Registry) (t : GoType) (mi : MappingInfo)
    (h₁ : regOK env r₁ = true) (h₂ : regOK env r₂ = true) (hle : regCompLE r₁ r₂)
    (h : assocGet r₁ t = some (some mi)) : assocGet r₂ t = some (some mi) := by
  obtain ⟨mi', hmi'⟩ := hle t ⟨mi, h⟩
  have e1 := regOK_get env r₁ t mi h₁ h
  have e2 := regOK_get env r₂ t mi' h₂ hmi'
  rw [e1] at e2
  injection e2 with e3
  subst e3
  exact hmi'

theorem regComplete_assocSet (r : Registry) (t u : GoType) (v : Option MappingInfo)
    (h : regComplete r u) (hne : u ≠ t) : regComplete (assocSet r t v) u := by
  obtain ⟨mi, hmi⟩ := h
  exact ⟨mi, by rw [assocGet_assocSet_ne r t u v hne]; exact hmi⟩

theorem regOK_assocSet (env : Env) (r : Registry) (t : GoType) (v : Option MappingInfo)
    (hok : regOK env r = true)
    (hv : ∀ mi, v = some mi → infoOf env t = some mi) :
    regOK env (assocSet r t v) = true := by
  rw [regOK, List.all_eq_true]
  intro p hp
  rcases mem_assocSet r t v p hp with h1 | h2
  · subst h1
    cases hvv : v with
    | none => simp
    | some mi => simp [hv mi hvv]
  · exact (List.all_eq_true.mp hok) p h2

/-- The analyzer field loop: on success it preserves the registry
invariant, only grows the set of complete entries, and its accumulators
are exactly `buildInfoLoop`'s (they never depend on the registry). -/
theorem analyzeFieldLoop_reg (env : Env) (recur : GoType → Registry → ARes)
    (hrec : ∀ t r r', regOK env r = true → recur t r = .ok r' →
      regOK env r' = true ∧ regCompLE r r') :
    ∀ (fields : List GoField) (i : Nat) (fm : List (String × Nat))
      (rels : List (Nat × GoType)) (kf : Option PrimaryKeyInfo) (r : Registry)
      (fm' : List (String × Nat)) (rels' : List (Nat × GoType))
      (kf' : Option PrimaryKeyInfo) (r' : Registry),
      regOK env r = true →
      analyzeFieldLoop recur fields i fm rels kf r = .ok fm' rels' kf' r' →
      regOK env r' = true ∧ regCompLE r r' ∧
        buildInfoLoop fields i fm rels kf = some ⟨kf', fm', rels'⟩ := by
  intro fields
  induction fields with
  | nil =>
    intro i fm rels kf r fm' rels' kf' r' hok h
    rw [analyzeFieldLoop] at h
    cases h
    exact ⟨hok, regCompLE_refl r, rfl⟩
  | cons f rest ih =>
    intro i fm rels kf r fm' rels' kf' r' hok h
    rw [analyzeFieldLoop.eq_def] at h
    rw [buildInfoLoop.eq_def]
    simp only [] at h ⊢
    by_cases hpk : (f.primaryKeyTag != "") = true
    · rw [if_pos hpk] at h
      rw [if_pos hpk]
      cases kf with
      | none => exact ih _ _ _ _ _ _ _ _ _ hok h
      | some pk => exact absurd h (by simp)
    · rw [if_neg hpk] at h
      rw [if_neg hpk]
      by_cases hre : (f.relationshipTag != "") = true
      · rw [if_pos hre] at h
        rw [if_pos hre]
        cases hrr : recur (relElemType f.typ) r with
        | ok r₂ =>
          rw [hrr] at h
          obtain ⟨hok₂, hle₂⟩ := hrec _ _ _ hok hrr
          obtain ⟨hok', hle', hbuild⟩ := ih _ _ _ _ _ _ _ _ _ hok₂ h
          exact ⟨hok', regCompLE_trans hle₂ hle', hbuild⟩
        | err m r₂ =>
          rw [hrr] at h
          exact absurd h (by simp)
        | panicked =>
          rw [hrr] at h
          exact absurd h (by simp)
      · rw [if_neg hre] at h
        rw [if_neg hre]
        by_cases hdb : (f.dbTag != "") = true
        · rw [if_pos hdb] at h
          rw [if_pos hdb]
          exact ih _ _ _ _ _ _ _ _ _ hok h
        · rw [if_neg hdb] at h
          rw [if_neg hdb]
          exact ih _ _ _ _ _ _ _ _ _ hok h

/-- `analyzeEntity` preserves the registry invariant and only grows the
set of complete entries. -/
theorem analyzeEntity_reg (env : Env) :
    ∀ (fuel : Nat) (t : GoType) (r r' : Registry),
      regOK env r = true → analyzeEntity env fuel t r = .ok r' →
      regOK env r' = true ∧ regCompLE r r' := by
  intro fuel
  induction fuel with
  | zero =>
    intro t r r' _ h
    exact absurd h (by simp [analyzeEntity])
  | succ fuel ih =>
    intro t r r' hok h
    rw [analyzeEntity] at h
    by_cases hhit : (GetEntityGraphMappingInfo r t).isSome = true
    · rw [if_pos hhit] at h
      cases h
      exact ⟨hok, regCompLE_refl r⟩
    · rw [if_neg hhit] at h
      cases htd : DeReferencePointer t with
      | tStruct n =>
        rw [htd] at h
        cases henv : envFields env n with
        | none =>
          simp only [henv] at h
          exact absurd h (by simp)
        | some fields =>
          simp only [henv] at h
          cases hloop : analyzeFieldLoop (analyzeEntity env fuel) fields 0 [] [] none
              (SetEntityGraphMappingInfo r (.tStruct n) none) with
          | ok fm rels kf r₂ =>
            rw [hloop] at h
            cases h
            have hok₁ : regOK env (SetEntityGraphMappingInfo r (.tStruct n) none) = true :=
              regOK_assocSet env r (.tStruct n) none hok (fun mi hmi => nomatch hmi)
            obtain ⟨hok₂, hle₂, hbuild⟩ :=
              analyzeFieldLoop_reg env (analyzeEntity env fuel) (fun u a b => ih u a b)
                fields 0 [] [] none _ fm rels kf r₂ hok₁ hloop
            have hinfo : infoOf env (.tStruct n) = some ⟨kf, fm, rels⟩ := by
              simp [infoOf, henv, hbuild]
            refine ⟨regOK_assocSet env r₂ (.tStruct n) (some ⟨kf, fm, rels⟩) hok₂
              (fun mi hmi => by injection hmi with hmi'; rw [← hmi']; exact hinfo), ?_⟩
            intro u hu
            by_cases hun : u = .tStruct n
            · subst hun
              exact ⟨⟨kf, fm, rels⟩, assocGet_assocSet_self r₂ (.tStruct n) (some ⟨kf, fm, rels⟩)⟩
            · refine regComplete_assocSet r₂ (.tStruct n) u (some ⟨kf, fm, rels⟩) ?_ hun
              refine hle₂ u ?_
              exact regComplete_assocSet r (.tStruct n) u none hu hun
          | err m r₂ =>
            rw [hloop] at h
            exact absurd h (by simp)
          | panicked =>
            rw [hloop] at h
            exact absurd h (by simp)
      | tInt => rw [htd] at h; simp at h
      | tUint => rw [htd] at h; simp at h
      | tStr => rw [htd] at h; simp at h
      | tBool => rw [htd] at h; simp at h
      | tPtr e => rw [htd] at h; simp at h
      | tSlice e => rw [htd] at h; simp at h

/-- The shared `mapToStruct` body preserves the registry invariant and
only grows the set of complete entries, given that its relationship
loop does. -/
theorem mapToStructBody_reg (env : Env) (setF : GoType → Val → Val → SRes)
    (relLoop : Row → Nat → List (Nat × GoType) → St → RRes)
    (hrel : ∀ row a rels st st', regOK env st.reg = true → relLoop row a rels st = .ok st' →
      regOK env st'.reg = true ∧ regCompLE st.reg st'.reg)
    (t : GoType) (mi : MappingInfo) (kc : String) (row : Row) (dest : Nat)
    (elk : List (Val × Nat)) (st : St) (a : Nat) (ex : Bool) (st' : St)
    (hok : regOK env st.reg = true)
    (h : mapToStructBody env setF relLoop t mi kc row dest elk st = .ok a ex st') :
    regOK env st'.reg = true ∧ regCompLE st.reg st'.reg := by
  simp only [mapToStructBody] at h
  by_cases hkey : rowHas row kc = true
  · rw [if_pos hkey] at h
    cases hlk : assocGet elk (rowGet row kc) with
    | some a0 =>
      simp only [hlk] at h
      cases hrl : relLoop row a0 mi.Relationships st with
      | ok st₂ =>
        simp only [hrl] at h
        cases h
        exact hrel row _ mi.Relationships st st₂ hok hrl
      | err m st₂ => simp only [hrl] at h; exact absurd h (by simp)
      | panicked => simp only [hrl] at h; exact absurd h (by simp)
    | none =>
      simp only [hlk] at h
      cases t with
      | tStruct n =>
        cases henv : envFields env n with
        | none => simp only [henv] at h; exact absurd h (by simp)
        | some flds =>
          simp only [henv] at h
          cases hpop : populateLoop setF flds row dest mi.FieldMapping st.heap with
          | ok heap1 =>
            simp only [hpop] at h
            cases hrl : relLoop row dest mi.Relationships ⟨st.lookup, st.reg, heap1⟩ with
            | ok st₂ =>
              simp only [hrl] at h
              cases h
              exact hrel row dest mi.Relationships ⟨st.lookup, st.reg, heap1⟩ st₂ hok hrl
            | err m st₂ => simp only [hrl] at h; exact absurd h (by simp)
            | panicked => simp only [hrl] at h; exact absurd h (by simp)
          | err m heap1 => simp only [hpop] at h; exact absurd h (by simp)
          | panicked => simp only [hpop] at h; exact absurd h (by simp)
      | tInt => exact absurd h (by simp)
      | tUint => exact absurd h (by simp)
      | tStr => exact absurd h (by simp)
      | tBool => exact absurd h (by simp)
      | tPtr e => exact absurd h (by simp)
      | tSlice e => exact absurd h (by simp)
  · rw [if_neg hkey] at h
    exact absurd h (by simp)

/-- Successful materializations (`mapToStruct`, first variant) and
relationship-loop runs preserve the registry invariant and only grow
the set of complete entries, at every fuel level. -/
theorem mapToStruct1_reg (env : Env) (zf : Nat) :
    ∀ fuel : Nat,
      (∀ (t : GoType) (row : Row) (dest : Nat) (st : St) (a : Nat) (ex : Bool) (st' : St),
        regOK env st.reg = true →
        mapToStruct1 env zf fuel t row dest st = .ok a ex st' →
        regOK env st'.reg = true ∧ regCompLE st.reg st'.reg) ∧
      (∀ (row : Row) (objAddr : Nat) (rels : List (Nat × GoType)) (st st' : St),
        regOK env st.reg = true →
        mapRelLoop1 env zf (mapToStruct1 env zf fuel) row objAddr rels st = .ok st' →
        regOK env st'.reg = true ∧ regCompLE st.reg st'.reg) := by
  intro fuel
  induction fuel with
  | zero =>
    constructor
    · intro t row dest st a ex st' _ h
      rw [mapToStruct1] at h
      exact absurd h (by simp)
    · intro row objAddr rels
      induction rels with
      | nil =>
        intro st st' hok h
        rw [mapRelLoop1] at h
        cases h
        exact ⟨hok, regCompLE_refl _⟩
      | cons p rest ihr =>
        intro st st' hok h
        obtain ⟨fi, rt⟩ := p
        simp only [mapRelLoop1, mapToStruct1] at h
        exact absurd h (by simp)
  | succ fuel ih =>
    obtain ⟨ih1, ih2⟩ := ih
    have hpart1 : ∀ (t : GoType) (row : Row) (dest : Nat) (st : St) (a : Nat) (ex : Bool)
        (st' : St), regOK env st.reg = true →
        mapToStruct1 env zf (fuel + 1) t row dest st = .ok a ex st' →
        regOK env st'.reg = true ∧ regCompLE st.reg st'.reg := by
      intro t row dest st a ex st' hok h
      simp only [mapToStruct1] at h
      generalize hL : (if (assocGet st.lookup t).isSome = true then st.lookup
        else assocSet st.lookup t []) = lk0 at h
      cases hget : GetEntityGraphMappingInfo st.reg t with
      | none =>
        simp only [hget] at h
        cases han : analyzeEntity env fuel t st.reg with
        | ok reg₁ =>
          simp only [han] at h
          obtain ⟨hok₁, hle₁⟩ := analyzeEntity_reg env fuel t st.reg reg₁ hok han
          cases hget₁ : GetEntityGraphMappingInfo reg₁ t with
          | none => simp only [hget₁] at h; exact absurd h (by simp)
          | some omi =>
            cases omi with
            | none => simp only [hget₁] at h; exact absurd h (by simp)
            | some mi =>
              simp only [hget₁] at h
              cases hkf : mi.KeyField with
              | none => simp only [hkf] at h; exact absurd h (by simp)
              | some pk =>
                simp only [hkf] at h
                obtain ⟨h1, h2⟩ := mapToStructBody_reg env (setFieldValue1 env zf) _ ih2
                  t mi pk.dbPrimaryKeyName row dest ((assocGet lk0 t).getD [])
                  ⟨lk0, reg₁, st.heap⟩ a ex st' hok₁ h
                exact ⟨h1, regCompLE_trans hle₁ h2⟩
        | err m reg₁ => simp only [han] at h; exact absurd h (by simp)
        | panicked => simp only [han] at h; exact absurd h (by simp)
      | some omi =>
        cases omi with
        | none => simp only [hget] at h; exact absurd h (by simp)
        | some mi =>
          simp only [hget] at h
          cases hkf : mi.KeyField with
          | none => simp only [hkf] at h; exact absurd h (by simp)
          | some pk =>
            simp only [hkf] at h
            exact mapToStructBody_reg env (setFieldValue1 env zf) _ ih2
              t mi pk.dbPrimaryKeyName row dest ((assocGet lk0 t).getD [])
              ⟨lk0, st.reg, st.heap⟩ a ex st' hok h
    refine ⟨hpart1, ?_⟩
    intro row objAddr rels
    induction rels with
    | nil =>
      intro st st' hok h
      rw [mapRelLoop1] at h
      cases h
      exact ⟨hok, regCompLE_refl _⟩
    | cons p rest ihr =>
      intro st st' hok h
      obtain ⟨fi, rt⟩ := p
      simp only [mapRelLoop1] at h
      split at h
      · exact absurd h (by simp)
      · exact absurd h (by simp)
      · rename_i valAddr exw st₂ hrec
        obtain ⟨hok₂, hle₂⟩ := hpart1 (relElemType rt) row st.heap.length
          ⟨st.lookup, st.reg, st.heap ++ [zeroVal env zf (relElemType rt)]⟩
          valAddr exw st₂ hok hrec
        split at h
        · split at h
          · exact absurd h (by simp)
          · rename_i field hsfg
            split at h
            · exact absurd h (by simp)
            · split at h
              · rename_i nfv hsf
                split at h
                · rename_i obj' hss
                  obtain ⟨hok', hle'⟩ :=
                    ihr ⟨st₂.lookup, st₂.reg, heapSet st₂.heap objAddr obj'⟩ st' hok₂ h
                  exact ⟨hok', regCompLE_trans hle₂ hle'⟩
                · exact absurd h (by simp)
              · exact absurd h (by simp)
              · exact absurd h (by simp)
        · obtain ⟨hok', hle'⟩ := ihr _ _ hok₂ h
          exact ⟨hok', regCompLE_trans hle₂ hle'⟩

/-- Re-running the shared `mapToStruct` body against an
invariant-satisfying registry that already contains every complete
entry of the first run's final registry reproduces the first run's
result and leaves the registry unchanged, given that the relationship
loop does so. -/
theorem mapToStructBody_refetch (env : Env) (setF : GoType → Val → Val → SRes)
    (relLoop : Row → Nat → List (Nat × GoType) → St → RRes)
    (hrelM : ∀ (row : Row) (a : Nat) (rels : List (Nat × GoType)) (lk : Lookup) (hp : Heap)
       (rA : Registry) (lk₁ : Lookup) (hp₁ : Heap) (rZ rB : Registry),
      regOK env rA = true →
      relLoop row a rels ⟨lk, rA, hp⟩ = .ok ⟨lk₁, rZ, hp₁⟩ →
      regOK env rB = true → regCompLE rZ rB →
      relLoop row a rels ⟨lk, rB, hp⟩ = .ok ⟨lk₁, rB, hp₁⟩)
    (t : GoType) (mi : MappingInfo) (kc : String) (row : Row) (dest : Nat)
    (elk : List (Val × Nat)) (lk : Lookup) (hp : Heap) (rA : Registry)
    (a : Nat) (ex : Bool) (lk₁ : Lookup) (hp₁ : Heap) (rZ rB : Registry)
    (hokA : regOK env rA = true)
    (h : mapToStructBody env setF relLoop t mi kc row dest elk ⟨lk, rA, hp⟩ =
      .ok a ex ⟨lk₁, rZ, hp₁⟩)
    (hokB : regOK env rB = true) (hle : regCompLE rZ rB) :
    mapToStructBody env setF relLoop t mi kc row dest elk ⟨lk, rB, hp⟩ =
      .ok a ex ⟨lk₁, rB, hp₁⟩ := by
  simp only [mapToStructBody] at h ⊢
  by_cases hkey : rowHas row kc = true
  · rw [if_pos hkey] at h ⊢
    cases hlk : assocGet elk (rowGet row kc) with
    | some a0 =>
      simp only [hlk] at h ⊢
      cases hrl : relLoop row a0 mi.Relationships ⟨lk, rA, hp⟩ with
      | ok st₂ =>
        obtain ⟨lk₂, r₂, hp₂⟩ := st₂
        simp only [hrl] at h
        cases h
        simp only [hrelM _ _ _ _ _ _ _ _ _ _ hokA hrl hokB hle]
      | err m st₂ => simp only [hrl] at h; exact absurd h (by simp)
      | panicked => simp only [hrl] at h; exact absurd h (by simp)
    | none =>
      simp only [hlk] at h ⊢
      cases t with
      | tStruct n =>
        cases henv : envFields env n with
        | none =>
          simp only [henv] at h
          exact absurd h (by simp)
        | some flds =>
          simp only [henv] at h ⊢
          cases hpop : populateLoop setF flds row dest mi.FieldMapping hp with
          | ok heap1 =>
            simp only [hpop] at h ⊢
            cases hrl : relLoop row dest mi.Relationships ⟨lk, rA, heap1⟩ with
            | ok st₂ =>
              obtain ⟨lk₂, r₂, hp₂⟩ := st₂
              simp only [hrl] at h
              cases h
              simp only [hrelM _ _ _ _ _ _ _ _ _ _ hokA hrl hokB hle]
            | err m st₂ => simp only [hrl] at h; exact absurd h (by simp)
            | panicked => simp only [hrl] at h; exact absurd h (by simp)
          | err m heap1 => simp only [hpop] at h; exact absurd h (by simp)
          | panicked => simp only [hpop] at h; exact absurd h (by simp)
      | tInt => exact absurd h (by simp)
      | tUint => exact absurd h (by simp)
      | tStr => exact absurd h (by simp)
      | tBool => exact absurd h (by simp)
      | tPtr e => exact absurd h (by simp)
      | tSlice e => exact absurd h (by simp)
  · rw [if_neg hkey] at h
    exact absurd h (by simp)

/-- Two-run simulation for the first variant: a successful
materialization re-run against an invariant-satisfying registry that
already contains every complete entry of the first run's final registry
yields the same address, `entityExists` flag, identity map and heap,
and leaves the registry unchanged; jointly for the relationship loop at
each fuel level. -/
theorem mapToStruct1_refetch (env : Env) (zf : Nat) :
    ∀ fuel : Nat,
      (∀ (t : GoType) (row : Row) (dest : Nat) (lk : Lookup) (hp : Heap) (rA : Registry)
         (a : Nat) (ex : Bool) (lk₁ : Lookup) (hp₁ : Heap) (rZ rB : Registry),
        regOK env rA = true →
        mapToStruct1 env zf fuel t row dest ⟨lk, rA, hp⟩ = .ok a ex ⟨lk₁, rZ, hp₁⟩ →
        regOK env rB = true → regCompLE rZ rB →
        mapToStruct1 env zf fuel t row dest ⟨lk, rB, hp⟩ = .ok a ex ⟨lk₁, rB, hp₁⟩) ∧
      (∀ (row : Row) (objAddr : Nat) (rels : List (Nat × GoType)) (lk : Lookup) (hp : Heap)
         (rA : Registry) (lk₁ : Lookup) (hp₁ : Heap) (rZ rB : Registry),
        regOK env rA = true →
        mapRelLoop1 env zf (mapToStruct1 env zf fuel) row objAddr rels ⟨lk, rA, hp⟩ =
          .ok ⟨lk₁, rZ, hp₁⟩ →
        regOK env rB = true → regCompLE rZ rB →
        mapRelLoop1 env zf (mapToStruct1 env zf fuel) row objAddr rels ⟨lk, rB, hp⟩ =
          .ok ⟨lk₁, rB, hp₁⟩) := by
  intro fuel
  induction fuel with
  | zero =>
    constructor
    · intro t row dest lk hp rA a ex lk₁ hp₁ rZ rB _ h _ _
      rw [mapToStruct1] at h
      exact absurd h (by simp)
    · intro row objAddr rels
      induction rels with
      | nil =>
        intro lk hp rA lk₁ hp₁ rZ rB _ h _ _
        rw [mapRelLoop1] at h
        cases h
        rw [mapRelLoop1]
      | cons p rest ihr =>
        intro lk hp rA lk₁ hp₁ rZ rB _ h _ _
        obtain ⟨fi, rt⟩ := p
        simp only [mapRelLoop1, mapToStruct1] at h
        exact absurd h (by simp)
  | succ fuel ih =>
    obtain ⟨ihm1, ihm2⟩ := ih
    have hpart1 : ∀ (t : GoType) (row : Row) (dest : Nat) (lk : Lookup) (hp : Heap)
        (rA : Registry) (a : Nat) (ex : Bool) (lk₁ : Lookup) (hp₁ : Heap) (rZ rB : Registry),
        regOK env rA = true →
        mapToStruct1 env zf (fuel + 1) t row dest ⟨lk, rA, hp⟩ = .ok a ex ⟨lk₁, rZ, hp₁⟩ →
        regOK env rB = true → regCompLE rZ rB →
        mapToStruct1 env zf (fuel + 1) t row dest ⟨lk, rB, hp⟩ = .ok a ex ⟨lk₁, rB, hp₁⟩ := by
      intro t row dest lk hp rA a ex lk₁ hp₁ rZ rB hokA h hokB hle
      obtain ⟨hokZ, hleAZ⟩ := (mapToStruct1_reg env zf (fuel + 1)).1 t row dest ⟨lk, rA, hp⟩
        a ex ⟨lk₁, rZ, hp₁⟩ hokA h
      simp only [mapToStruct1] at h ⊢
      generalize hL : (if (assocGet lk t).isSome = true then lk else assocSet lk t []) = lk0
        at h ⊢
      cases hget : GetEntityGraphMappingInfo rA t with
      | some omi =>
        cases omi with
        | none => simp only [hget] at h; exact absurd h (by simp)
        | some mi =>
          simp only [hget] at h
          have hgetB : GetEntityGraphMappingInfo rB t = some (some mi) :=
            regGet_transfer env rA rB t mi hokA hokB (regCompLE_trans hleAZ hle) hget
          simp only [hgetB]
          cases hkf : mi.KeyField with
          | none => simp only [hkf] at h; exact absurd h (by simp)
          | some pk =>
            simp only [hkf] at h ⊢
            exact mapToStructBody_refetch env (setFieldValue1 env zf) _ ihm2 t mi
              pk.dbPrimaryKeyName row dest ((assocGet lk0 t).getD []) lk0 hp rA a ex
              lk₁ hp₁ rZ rB hokA h hokB hle
      | none =>
        simp only [hget] at h
        cases han : analyzeEntity env fuel t rA with
        | ok rA' =>
          simp only [han] at h
          obtain ⟨hokA', hleA'⟩ := analyzeEntity_reg env fuel t rA rA' hokA han
          cases hget₁ : GetEntityGraphMappingInfo rA' t with
          | none => simp only [hget₁] at h; exact absurd h (by simp)
          | some omi =>
            cases omi with
            | none => simp only [hget₁] at h; exact absurd h (by simp)
            | some mi =>
              simp only [hget₁] at h
              cases hkf : mi.KeyField with
              | none => simp only [hkf] at h; exact absurd h (by simp)
              | some pk =>
                simp only [hkf] at h
                obtain ⟨hokZ', hleb⟩ := mapToStructBody_reg env (setFieldValue1 env zf) _
                  (mapToStruct1_reg env zf fuel).2 t mi pk.dbPrimaryKeyName row dest
                  ((assocGet lk0 t).getD []) ⟨lk0, rA', hp⟩ a ex ⟨lk₁, rZ, hp₁⟩ hokA' h
                have hgetB : GetEntityGraphMappingInfo rB t = some (some mi) :=
                  regGet_transfer env rA' rB t mi hokA' hokB (regCompLE_trans hleb hle) hget₁
                simp only [hgetB, hkf]
                exact mapToStructBody_refetch env (setFieldValue1 env zf) _ ihm2 t mi
                  pk.dbPrimaryKeyName row dest ((assocGet lk0 t).getD []) lk0 hp rA' a ex
                  lk₁ hp₁ rZ rB hokA' h hokB hle
        | err m rA' => simp only [han] at h; exact absurd h (by simp)
        | panicked => simp only [han] at h; exact absurd h (by simp)
    refine ⟨hpart1, ?_⟩
    intro row objAddr rels
    induction rels with
    | nil =>
      intro lk hp rA lk₁ hp₁ rZ rB _ h _ _
      rw [mapRelLoop1] at h
      cases h
      rw [mapRelLoop1]
    | cons p rest ihr =>
      intro lk hp rA lk₁ hp₁ rZ rB hokA h hokB hle
      obtain ⟨fi, rt⟩ := p
      simp only [mapRelLoop1] at h ⊢
      split at h
      · exact absurd h (by simp)
      · exact absurd h (by simp)
      · rename_i valAddr exw st₂ hrec
        obtain ⟨lk₂, r₂, hp₂⟩ := st₂
        obtain ⟨hok₂, hle₂⟩ := (mapToStruct1_reg env zf (fuel + 1)).1 (relElemType rt) row
          (List.length hp) ⟨lk, rA, hp ++ [zeroVal env zf (relElemType rt)]⟩ valAddr exw
          ⟨lk₂, r₂, hp₂⟩ hokA hrec
        split at h
        · rename_i hguard
          split at h
          · exact absurd h (by simp)
          · rename_i field hsfg
            split at h
            · exact absurd h (by simp)
            · rename_i hz
              split at h
              · rename_i nfv hsf
                split at h
                · rename_i obj' hss
                  obtain ⟨hokT, hleT⟩ := (mapToStruct1_reg env zf (fuel + 1)).2 row objAddr
                    rest ⟨lk₂, r₂, heapSet hp₂ objAddr obj'⟩ ⟨lk₁, rZ, hp₁⟩ hok₂ h
                  have hrecB := hpart1 (relElemType rt) row (List.length hp) lk
                    (hp ++ [zeroVal env zf (relElemType rt)]) rA
                    valAddr exw lk₂ hp₂ r₂ rB hokA hrec hokB (regCompLE_trans hleT hle)
                  simp only [hrecB]
                  rw [if_pos hguard]
                  simp only [hsfg]
                  rw [if_neg hz]
                  simp only [hsf, hss]
                  exact ihr lk₂ (heapSet hp₂ objAddr obj') r₂ lk₁ hp₁ rZ rB hok₂ h hokB hle
                · exact absurd h (by simp)
              · exact absurd h (by simp)
              · exact absurd h (by simp)
        · rename_i hguard
          obtain ⟨hokT, hleT⟩ := (mapToStruct1_reg env zf (fuel + 1)).2 row objAddr rest
            ⟨lk₂, r₂, hp₂⟩ ⟨lk₁, rZ, hp₁⟩ hok₂ h
          have hrecB := hpart1 (relElemType rt) row (List.length hp) lk
            (hp ++ [zeroVal env zf (relElemType rt)]) rA valAddr exw
            lk₂ hp₂ r₂ rB hokA hrec hokB (regCompLE_trans hleT hle)
          simp only [hrecB]
          rw [if_neg hguard]
          exact ihr lk₂ hp₂ r₂ lk₁ hp₁ rZ rB hok₂ h hokB hle

/-- The `ScanOne` row loop preserves the registry invariant and only
grows the set of complete entries. -/
theorem scanOneLoop1_reg (env : Env) (zf fuel : Nat) (t : GoType) :
    ∀ (rows : List Row) (st st' : St), regOK env st.reg = true →
      scanOneLoop (mapToStruct1 env zf fuel t) rows st = .ok st' →
      regOK env st'.reg = true ∧ regCompLE st.reg st'.reg := by
  intro rows
  induction rows with
  | nil =>
    intro st st' hok h
    rw [scanOneLoop] at h
    cases h
    exact ⟨hok, regCompLE_refl _⟩
  | cons row rest ih =>
    intro st st' hok h
    rw [scanOneLoop] at h
    cases hstep : mapToStruct1 env zf fuel t row 0 st with
    | ok a ex st₂ =>
      simp only [hstep] at h
      obtain ⟨hok₂, hle₂⟩ := (mapToStruct1_reg env zf fuel).1 t row 0 st a ex st₂ hok hstep
      obtain ⟨hok', hle'⟩ := ih st₂ st' hok₂ h
      exact ⟨hok', regCompLE_trans hle₂ hle'⟩
    | err m st₂ => simp only [hstep] at h; exact absurd h (by simp)
    | panicked => simp only [hstep] at h; exact absurd h (by simp)

/-- Two-run simulation of the `ScanOne` row loop. -/
theorem scanOneLoop1_refetch (env : Env) (zf fuel : Nat) (t : GoType) :
    ∀ (rows : List Row) (lk : Lookup) (hp : Heap) (rA : Registry) (lk₁ : Lookup)
      (hp₁ : Heap) (rZ rB : Registry),
      regOK env rA = true →
      scanOneLoop (mapToStruct1 env zf fuel t) rows ⟨lk, rA, hp⟩ = .ok ⟨lk₁, rZ, hp₁⟩ →
      regOK env rB = true → regCompLE rZ rB →
      scanOneLoop (mapToStruct1 env zf fuel t) rows ⟨lk, rB, hp⟩ = .ok ⟨lk₁, rB, hp₁⟩ := by
  intro rows
  induction rows with
  | nil =>
    intro lk hp rA lk₁ hp₁ rZ rB _ h _ _
    rw [scanOneLoop] at h
    cases h
    rw [scanOneLoop]
  | cons row rest ih =>
    intro lk hp rA lk₁ hp₁ rZ rB hokA h hokB hle
    rw [scanOneLoop] at h ⊢
    cases hstep : mapToStruct1 env zf fuel t row 0 ⟨lk, rA, hp⟩ with
    | ok a ex st₂ =>
      obtain ⟨lk₂, r₂, hp₂⟩ := st₂
      simp only [hstep] at h
      obtain ⟨hok₂, hle₂⟩ := (mapToStruct1_reg env zf fuel).1 t row 0 ⟨lk, rA, hp⟩ a ex
        ⟨lk₂, r₂, hp₂⟩ hokA hstep
      obtain ⟨hokT, hleT⟩ := scanOneLoop1_reg env zf fuel t rest ⟨lk₂, r₂, hp₂⟩
        ⟨lk₁, rZ, hp₁⟩ hok₂ h
      have hstepB := (mapToStruct1_refetch env zf fuel).1 t row 0 lk hp rA a ex lk₂ hp₂
        r₂ rB hokA hstep hokB (regCompLE_trans hleT hle)
      simp only [hstepB]
      exact ih lk₂ hp₂ r₂ lk₁ hp₁ rZ rB hok₂ h hokB hle
    | err m st₂ => simp only [hstep] at h; exact absurd h (by simp)
    | panicked => simp only [hstep] at h; exact absurd h (by simp)

/-- C7: metadata analysis is idempotent — (i) `analyzeEntity` on a type
whose registry entry already exists (complete descriptor or cycle-guard
placeholder) returns success immediately with the registry unchanged;
(ii) re-running a successful map-one scan against the registry it
produced (under the invariant that complete entries store the canonical
analyzer output, which holds for every registry grown from the empty
one) reuses the cached descriptors and yields the identical result:
same output value and the same, unchanged registry. -/
theorem C7_analysis_idempotent :
    (∀ (env : Env) (fuel : Nat) (t : GoType) (reg : Registry) (v : Option MappingInfo),
      GetEntityGraphMappingInfo reg t = some v →
      analyzeEntity env (fuel + 1) t reg = .ok reg) ∧
    (∀ (env : Env) (zf fuel : Nat) (reg : Registry) (destType : Option GoType)
       (destInit : Val) (rows : List Row) (v : Val) (reg₂ : Registry),
      regOK env reg = true →
      ScanOne1 env zf fuel reg destType destInit rows = .ok v reg₂ →
      ScanOne1 env zf fuel reg₂ destType destInit rows = .ok v reg₂) := by
  constructor
  · intro env fuel t reg v h
    rw [analyzeEntity]
    rw [if_pos (by simp [h])]
  · intro env zf fuel reg destType destInit rows v reg₂ hok h
    cases destType with
    | none =>
      rw [ScanOne1] at h
      exact absurd h (by simp)
    | some dt =>
      cases dt with
      | tPtr inner =>
        simp only [ScanOne1, DeReferencePointer] at h ⊢
        cases inner with
        | tStruct n =>
          cases hloop : scanOneLoop (mapToStruct1 env zf fuel (.tStruct n)) rows
              ⟨[], reg, [destInit]⟩ with
          | ok st =>
            obtain ⟨lkS, rS, hpS⟩ := st
            simp only [hloop] at h
            by_cases hz : isZeroVal (heapGet hpS 0) = true
            · rw [if_pos hz] at h
              exact absurd h (by simp)
            · rw [if_neg hz] at h
              cases h
              obtain ⟨hokS, hleS⟩ := scanOneLoop1_reg env zf fuel (.tStruct n) rows
                ⟨[], reg, [destInit]⟩ ⟨lkS, reg₂, hpS⟩ hok hloop
              have hB := scanOneLoop1_refetch env zf fuel (.tStruct n) rows [] [destInit]
                reg lkS hpS reg₂ reg₂ hok hloop hokS (regCompLE_refl reg₂)
              simp only [hB]
              rw [if_neg hz]
          | err m st => simp only [hloop] at h; exact absurd h (by simp)
          | panicked => simp only [hloop] at h; exact absurd h (by simp)
        | tInt => exact absurd h (by simp)
        | tUint => exact absurd h (by simp)
        | tStr => exact absurd h (by simp)
        | tBool => exact absurd h (by simp)
        | tPtr e => exact absurd h (by simp)
        | tSlice e => exact absurd h (by simp)
      | tInt => simp only [ScanOne1] at h; exact absurd h (by simp)
      | tUint => simp only [ScanOne1] at h; exact absurd h (by simp)
      | tStr => simp only [ScanOne1] at h; exact absurd h (by simp)
      | tBool => simp only [ScanOne1] at h; exact absurd h (by simp)
      | tStruct m => simp only [ScanOne1] at h; exact absurd h (by simp)
      | tSlice e => simp only [ScanOne1] at h; exact absurd h (by simp)

/-- Witness for C7: (i) re-analyzing the already-registered minimal
user type leaves the registry unchanged; (ii) re-running the one-row
user scan from the registry the first (empty-registry) run produced
returns the identical value and registry. -/
theorem C7_analysis_idempotent_witness :
    analyzeEntity envMin 3 (.tStruct "u1f") regMin = .ok regMin ∧
    ScanOne1 envMin 3 4
        [(.tStruct "u1f", some ⟨some ⟨"user_id", "UserId"⟩, [("user_id", 0)], []⟩)]
        (some (.tPtr (.tStruct "u1f"))) (.vStruct "u1f" [.vUint 0])
        [[("user_id", .vInt 1)]] =
      .ok (.vStruct "u1f" [.vUint 1])
        [(.tStruct "u1f", some ⟨some ⟨"user_id", "UserId"⟩, [("user_id", 0)], []⟩)] :=
  ⟨C7_analysis_idempotent.1 envMin 2 (.tStruct "u1f") regMin
      (some ⟨some ⟨"user_id", "UserId"⟩, [("user_id", 0)], []⟩) (by decide),
   C7_analysis_idempotent.2 envMin 3 4 [] (some (.tPtr (.tStruct "u1f")))
      (.vStruct "u1f" [.vUint 0]) [[("user_id", .vInt 1)]] (.vStruct "u1f" [.vUint 1])
      [(.tStruct "u1f", some ⟨some ⟨"user_id", "UserId"⟩, [("user_id", 0)], []⟩)]
      (by decide) (by decide)⟩

end Automapper
